import Mathlib

/-!
Verification development for the llm-threader adaptive concurrency controller.

The JavaScript sources are shallowly embedded:
* JS numbers are modelled by `JNum` (NaN, ±Infinity, or a finite value as a
  rational; binary-float rounding is irrelevant to the verified claims),
  arbitrary JS values by `JSVal`.
* The `ThreadManager` class (admission manager) becomes a pure state record
  plus one Lean function per method; the `onScalingUpdate` callback channel is
  modelled by the `emitted` trace field, and the wall-clock `lastUpdate` /
  `startTime` / `endTime` timestamp fields, which no verified claim mentions,
  are omitted.  Asynchronous operation completion is modelled by explicit
  `complete` / `fail` events, matching the promise callbacks of the source.
* `Array.prototype.sort` (stable since ES2019) applied to the queue comparator
  (a total preorder) is modelled by Mathlib's stable `List.insertionSort`.
-/

set_option allowUnsafeReducibility true
attribute [semireducible] Rat.add Rat.sub Rat.mul Rat.inv Rat.ofScientific

namespace Threader

/-- Model of a JavaScript number: NaN, +Infinity, -Infinity, or a finite value
(modelled as a rational). -/
inductive JNum where
  | nan
  | posInf
  | negInf
  | fin (q : ℚ)
deriving DecidableEq, Repr

namespace JNum

/-- JS `<` on numbers; any comparison with NaN is false. -/
def jlt : JNum → JNum → Bool
  | nan, _ => false
  | _, nan => false
  | posInf, _ => false
  | negInf, negInf => false
  | negInf, _ => true
  | fin _, posInf => true
  | fin _, negInf => false
  | fin a, fin b => a < b

/-- JS `<=` on numbers; any comparison with NaN is false. -/
def jle : JNum → JNum → Bool
  | nan, _ => false
  | _, nan => false
  | _, posInf => true
  | posInf, _ => false
  | negInf, _ => true
  | fin _, negInf => false
  | fin a, fin b => a ≤ b

/-- JS `Math.max` of two numbers (NaN-propagating). -/
def jmax (a b : JNum) : JNum :=
  if a = nan ∨ b = nan then nan else if jlt a b then b else a

/-- JS `Math.min` of two numbers (NaN-propagating). -/
def jmin (a b : JNum) : JNum :=
  if a = nan ∨ b = nan then nan else if jlt b a then b else a

/-- JS `+` on numbers. -/
def jadd : JNum → JNum → JNum
  | nan, _ => nan
  | _, nan => nan
  | posInf, negInf => nan
  | negInf, posInf => nan
  | posInf, _ => posInf
  | _, posInf => posInf
  | negInf, _ => negInf
  | _, negInf => negInf
  | fin a, fin b => fin (a + b)

/-- JS `*` on numbers (0 · ±∞ = NaN). -/
def jmul : JNum → JNum → JNum
  | nan, _ => nan
  | _, nan => nan
  | posInf, posInf => posInf
  | posInf, negInf => negInf
  | negInf, posInf => negInf
  | negInf, negInf => posInf
  | posInf, fin b => if b = 0 then nan else if 0 < b then posInf else negInf
  | fin a, posInf => if a = 0 then nan else if 0 < a then posInf else negInf
  | negInf, fin b => if b = 0 then nan else if 0 < b then negInf else posInf
  | fin a, negInf => if a = 0 then nan else if 0 < a then negInf else posInf
  | fin a, fin b => fin (a * b)

/-- JS `Math.floor`. -/
def jfloor : JNum → JNum
  | nan => nan
  | posInf => posInf
  | negInf => negInf
  | fin q => fin (⌊q⌋ : ℚ)

end JNum

/-- Model of an arbitrary JavaScript value, at the granularity the embedded
code distinguishes (`typeof x === "number"` plus the number itself). -/
inductive JSVal where
  | undef
  | null
  | bool (b : Bool)
  | str (s : String)
  | num (n : JNum)
  | obj
deriving DecidableEq, Repr

/-- JS `typeof v === "number"`. -/
def JSVal.isNumber : JSVal → Bool
  | .num _ => true
  | _ => false

/-- JS `v ?? d` for an optional rational field. -/
def jsCoalesce (v : Option ℚ) (d : ℚ) : ℚ := v.getD d

/-- JS `v || d` for an optional rational field: `undefined`, `null` and `0`
are all falsy and replaced by the default. -/
def jsOrQ (v : Option ℚ) (d : ℚ) : ℚ :=
  match v with
  | none => d
  | some q => if q = 0 then d else q

/-! ## ThreadManager (admission manager), from the `ThreadManager` class with
queue/history-wide `findRequest`, timeouts and abort support. -/

/-- Lifecycle status of an `LLMRequest` (`request.status`). -/
inductive RStatus where
  | queued
  | active
  | completed
  | failed
deriving DecidableEq, Repr

/-- Embedding of the `LLMRequest` object.  `rid` models the generated unique
request id as a counter value; priorities are finite JS numbers; the
timestamp fields and the completion promise are omitted (no claim mentions
them); result/error payloads are abstracted to naturals. -/
structure LLMRequest where
  rid : ℕ
  priority : ℚ
  emergencyBypass : Bool
  status : RStatus
  result : Option ℕ
  error : Option ℕ
deriving DecidableEq, Repr

/-- State of the `ThreadManager`.  `emitted` is the trace of
`onScalingUpdate(newLimit, oldLimit)` callback invocations, newest last;
`nextId` is the request-id generator. -/
structure TM where
  maxConcurrentRequests : JNum
  activeRequests : ℕ
  requestQueue : List LLMRequest
  isProcessing : Bool
  requestHistory : List LLMRequest
  maxHistorySize : ℕ
  emergencyBypassActive : Bool
  desiredThreadCount : Option JNum
  nextId : ℕ
  emitted : List (JNum × JNum)
deriving DecidableEq, Repr

/-- Constructor state of `ThreadManager` (`maxHistorySize` from options,
default 100). -/
def tmInit (maxHistorySize : ℕ) : TM :=
  { maxConcurrentRequests := .fin 1
    activeRequests := 0
    requestQueue := []
    isProcessing := false
    requestHistory := []
    maxHistorySize := maxHistorySize
    emergencyBypassActive := false
    desiredThreadCount := none
    nextId := 0
    emitted := [] }

/-- The queue comparator of `queueRequest` as a total preorder:
`reqKeyLe a b` holds when the comparator returns a value ≤ 0 on `(a, b)`,
i.e. `a` may be placed before `b` (emergency first, then higher priority). -/
def reqKeyLe (a b : LLMRequest) : Prop :=
  (a.emergencyBypass ∧ ¬ b.emergencyBypass) ∨
    (a.emergencyBypass = b.emergencyBypass ∧ b.priority ≤ a.priority)

instance : DecidableRel reqKeyLe := fun a b => by
  unfold reqKeyLe; infer_instance

instance : IsTotal LLMRequest reqKeyLe :=
  ⟨by
    intro a b
    unfold reqKeyLe
    cases ha : a.emergencyBypass <;> cases hb : b.emergencyBypass <;>
      rcases le_total b.priority a.priority with h | h <;> simp [ha, hb, h]⟩

instance : IsTrans LLMRequest reqKeyLe :=
  ⟨by
    intro a b c hab hbc
    unfold reqKeyLe at *
    rcases hab with ⟨ha, hb⟩ | ⟨hab, hpab⟩ <;> rcases hbc with ⟨hb2, hc⟩ | ⟨hbc, hpbc⟩
    · exact absurd hb2 (by simp [hb])
    · exact Or.inl ⟨ha, by rw [← hbc]; exact hb⟩
    · exact Or.inl ⟨by rw [hab]; exact hb2, hc⟩
    · exact Or.inr ⟨hab.trans hbc, hpbc.trans hpab⟩⟩

/-- The `requestQueue.push(request); requestQueue.sort(comparator)` step:
ES2019 sort is stable and the comparator is a total preorder, so the sorted
array is computed by any stable sort; we use Mathlib's stable
`List.insertionSort`. -/
def jsSortQueue (l : List LLMRequest) : List LLMRequest :=
  List.insertionSort reqKeyLe l

/-- Removes the first element satisfying `p`
(`indexOf` + `splice(index, 1)` on the element returned by `find`). -/
def eraseFirstBy (p : α → Bool) : List α → List α
  | [] => []
  | a :: l => if p a then l else a :: eraseFirstBy p l

/-- Replaces the first element satisfying `p` by its image under `f`
(the in-place mutation of the object returned by `find`). -/
def updateFirst (p : α → Bool) (f : α → α) : List α → List α
  | [] => []
  | a :: l => if p a then f a :: l else a :: updateFirst p f l

/-- Embedding of `ThreadManager.startRequest` (its synchronous bookkeeping:
increment `activeRequests`, mark the request active, append to the bounded
history ring).  The asynchronous settling of the operation is modelled by
separate `complete` / `fail` events. -/
def startRequest (req : LLMRequest) (s : TM) : TM :=
  let s := { s with activeRequests := s.activeRequests + 1 }
  let hist := s.requestHistory ++ [{ req with status := .active }]
  let hist := if hist.length > s.maxHistorySize then hist.tail else hist
  { s with requestHistory := hist }

/-- The `while (activeRequests < maxConcurrentRequests && queue.length > 0)`
dispatch loop of `processQueue`; each iteration shifts the queue head and
starts it, so the initial queue length bounds the iteration count and is used
as structural fuel. -/
def dispatchLoop : ℕ → TM → TM
  | 0, s => s
  | fuel + 1, s =>
    match s.requestQueue with
    | [] => s
    | req :: rest =>
      if JNum.jlt (.fin s.activeRequests) s.maxConcurrentRequests then
        dispatchLoop fuel (startRequest req { s with requestQueue := rest })
      else s

/-- Embedding of `ThreadManager.processQueue`: re-entrancy guard, the
dispatch loop, then the emergency-bypass branch (temporarily set the limit to
`min(limit+1, 2)`, start the first queued emergency request, restore). -/
def processQueue (s : TM) : TM :=
  if s.isProcessing then s
  else
    let s1 := { s with isProcessing := true }
    let hasEmergencyRequests := s1.requestQueue.any (·.emergencyBypass)
    let s2 := dispatchLoop s1.requestQueue.length s1
    let s3 :=
      if hasEmergencyRequests &&
          JNum.jle s2.maxConcurrentRequests (.fin s2.activeRequests) then
        match s2.requestQueue.find? (·.emergencyBypass) with
        | some req =>
          let originalLimit := s2.maxConcurrentRequests
          let s2a := { s2 with
            maxConcurrentRequests :=
              JNum.jmin (JNum.jadd originalLimit (.fin 1)) (.fin 2) }
          let s2b := startRequest req
            { s2a with
              requestQueue := eraseFirstBy (·.emergencyBypass) s2a.requestQueue }
          { s2b with maxConcurrentRequests := originalLimit }
        | none => s2
      else s2
    { s3 with isProcessing := false }

/-- Embedding of `ThreadManager.queueRequest` (fresh id, emergency flag,
push + stable sort, dispatch). -/
def queueRequest (priority : ℚ) (emergencyBypass : Bool) (s : TM) : TM :=
  let req : LLMRequest :=
    { rid := s.nextId, priority := priority, emergencyBypass := emergencyBypass
      status := .queued, result := none, error := none }
  let s := { s with nextId := s.nextId + 1 }
  let s := if emergencyBypass then { s with emergencyBypassActive := true } else s
  let s := { s with requestQueue := jsSortQueue (s.requestQueue ++ [req]) }
  processQueue s

/-- The sanitation step of `updateThreadLimits`:
`typeof n !== "number" || isNaN(n) || n < 1` coerces to 1. -/
def sanitizeThreadLimit (v : JSVal) : JNum :=
  match v with
  | .num n => if n = .nan || JNum.jlt n (.fin 1) then .fin 1 else n
  | _ => .fin 1

/-- Embedding of `ThreadManager.updateThreadLimits`: sanitize, raise under an
active emergency bypass, defer a downscale below `activeRequests` into
`desiredThreadCount`, apply and emit on change, kick dispatch on upscale. -/
def updateThreadLimits (v : JSVal) (s : TM) : TM :=
  let newLimit := sanitizeThreadLimit v
  let newLimit :=
    if s.emergencyBypassActive then
      let qEm := (s.requestQueue.filter (·.emergencyBypass)).length
      let aEm := (s.requestHistory.filter
        (fun r => r.status == RStatus.active && r.emergencyBypass)).length
      if qEm > 0 || aEm > 0 then
        JNum.jmax newLimit (JNum.jmin (.fin 2) (.fin (qEm + aEm : ℕ)))
      else JNum.jmax newLimit (.fin 1)
    else newLimit
  let dn : JNum × Option JNum :=
    if JNum.jlt newLimit s.maxConcurrentRequests then
      if JNum.jlt newLimit (.fin s.activeRequests) then
        (.fin s.activeRequests, some newLimit)
      else (newLimit, none)
    else (newLimit, none)
  let s := { s with desiredThreadCount := dn.2 }
  if dn.1 ≠ s.maxConcurrentRequests then
    let oldLimit := s.maxConcurrentRequests
    let s := { s with
      maxConcurrentRequests := dn.1
      emitted := s.emitted ++ [(dn.1, oldLimit)] }
    if JNum.jlt oldLimit dn.1 then processQueue s else s
  else s

/-- Embedding of `ThreadManager.findRequest` (the broad variant: first an
active request in the history, then any request in the queue). -/
def findRequest (s : TM) (rid : ℕ) : Option LLMRequest :=
  match s.requestHistory.find?
      (fun r => r.rid == rid && r.status == RStatus.active) with
  | some r => some r
  | none => s.requestQueue.find? (fun r => r.rid == rid)

/-- Shared terminal-transition logic of `completeRequest` / `failRequest`
after the request object has been mutated: decrement `activeRequests`
(floored at 0), clear `emergencyBypassActive` when the last active emergency
ended, apply a pending deferred downscale, dispatch. -/
def terminalTail (req : LLMRequest) (rid : ℕ) (s : TM) : TM :=
  let s := { s with activeRequests := s.activeRequests - 1 }
  let s :=
    if req.emergencyBypass then
      let hasOther := s.requestHistory.any
        (fun r => r.status == RStatus.active && r.emergencyBypass && r.rid != rid)
      if hasOther then s else { s with emergencyBypassActive := false }
    else s
  let s :=
    match s.desiredThreadCount with
    | some d =>
      if JNum.jle (.fin s.activeRequests) d then
        let oldLimit := s.maxConcurrentRequests
        { s with
          maxConcurrentRequests := d
          emitted := s.emitted ++ [(d, oldLimit)]
          desiredThreadCount := none }
      else s
    | none => s
  processQueue s

/-- Mutates the request found by `findRequest` in place (it lives either in
the history, as an active request, or in the queue). -/
def mutateFound (rid : ℕ) (f : LLMRequest → LLMRequest) (s : TM) : TM :=
  let pAct := fun r : LLMRequest => r.rid == rid && r.status == RStatus.active
  if (s.requestHistory.find? pAct).isSome then
    { s with requestHistory := updateFirst pAct f s.requestHistory }
  else
    { s with requestQueue := updateFirst (fun r => r.rid == rid) f s.requestQueue }

/-- Embedding of `ThreadManager.completeRequest`. -/
def completeRequest (rid : ℕ) (res : ℕ) (s : TM) : TM :=
  match findRequest s rid with
  | none => s
  | some req =>
    let s := mutateFound rid
      (fun r => { r with status := .completed, result := some res }) s
    terminalTail req rid s

/-- Embedding of `ThreadManager.failRequest`. -/
def failRequest (rid : ℕ) (err : ℕ) (s : TM) : TM :=
  match findRequest s rid with
  | none => s
  | some req =>
    let s := mutateFound rid
      (fun r => { r with status := .failed, error := some err }) s
    terminalTail req rid s

/-- Public operations of the admission manager, as events of a state
machine: submission (via `execute`/`queueRequest`), a scaling update (via
`updateThreadLimits`), and the terminal transitions of a request. -/
inductive Ev where
  | submit (priority : ℚ) (emergencyBypass : Bool)
  | update (v : JSVal)
  | complete (rid : ℕ) (res : ℕ)
  | fail (rid : ℕ) (err : ℕ)
deriving DecidableEq, Repr

/-- One public operation. -/
def step (s : TM) : Ev → TM
  | .submit p e => queueRequest p e s
  | .update v => updateThreadLimits v s
  | .complete rid res => completeRequest rid res s
  | .fail rid err => failRequest rid err s

/-- Runs a list of public operations from a state. -/
def runFrom (s : TM) (es : List Ev) : TM := es.foldl step s

/-- Runs a list of public operations from the constructor state with the
default history bound. -/
def run (es : List Ev) : TM := runFrom (tmInit 100) es

/-! ## UsageHistoryManager (in-memory fallback path)

The persistent SQLite store is an external collaborator; the controller
configuration modelled here is the in-memory fallback
(`scalingDatabase.available = false`), which every claim exercises.
Stored points are modelled with the field names `analyzeUsageTrends` reads
(`cpu_usage`, `cpu_temp`, ...); absent fields are `none` and coerce to the
JS defaults through `jsOrQ`.  `operation_mix` is stored via
`JSON.stringify`/`JSON.parse` round-trips and is modelled structurally as an
association list. -/

/-- JS `Array.prototype.slice(-n)` (for `n = 0`, `slice(-0)` is the whole
array). -/
def jsSliceLast (n : ℕ) (l : List α) : List α :=
  if n = 0 then l else l.drop (l.length - n)

/-- An operation mix: operation type → count. -/
abbrev OpMix := List (String × ℚ)

/-- JS property read `mix[type]` on an operation mix. -/
def mixGet (m : OpMix) (t : String) : Option ℚ :=
  (m.find? (fun p => p.1 == t)).map (·.2)

/-- A stored usage-history point. -/
structure UsagePoint where
  timestamp : ℚ
  cpu_usage : Option ℚ
  cpu_temp : Option ℚ
  memory_usage : Option ℚ
  gpu_usage : Option ℚ
  gpu_temp : Option ℚ
  concurrent_threads : Option ℚ
  operation_mix : Option OpMix
deriving DecidableEq, Repr

/-- State of `UsageHistoryManager` (in-memory fallback): configuration plus
the `_memoryHistory` ring.  `maxHistoryAge` is in milliseconds. -/
structure UHM where
  maxHistoryAge : ℚ
  maxDataPoints : ℕ
  memoryHistory : List UsagePoint
deriving DecidableEq, Repr

/-- Embedding of `UsageHistoryManager.cleanup` (in-memory branch): age
filter, then keep the last `maxDataPoints`. -/
def uhmCleanup (now : ℚ) (m : UHM) : UHM :=
  let filtered := m.memoryHistory.filter
    (fun p => decide (p.timestamp ≥ now - m.maxHistoryAge))
  let filtered :=
    if filtered.length > m.maxDataPoints then jsSliceLast m.maxDataPoints filtered
    else filtered
  { m with memoryHistory := filtered }

/-- Embedding of `UsageHistoryManager.getAllHistory` (in-memory branch):
cleanup, then a copy of the ring. -/
def getAllHistory (now : ℚ) (m : UHM) : List UsagePoint :=
  (uhmCleanup now m).memoryHistory

/-- Embedding of `UsageHistoryManager.calculateTrend` (least-squares slope
over indices). -/
def calculateTrend (values : List ℚ) : ℚ :=
  if values.length < 2 then 0
  else
    let n : ℚ := values.length
    let idx := (List.range values.length).map (fun i => (i : ℚ))
    let sumX := idx.sum
    let sumY := values.sum
    let sumXY := ((idx.zip values).map (fun p => p.1 * p.2)).sum
    let sumXX := (idx.map (fun x => x * x)).sum
    let denom := n * sumXX - sumX * sumX
    if denom = 0 then 0 else (n * sumXY - sumX * sumY) / denom

/-- Embedding of `UsageHistoryManager.calculateRateOfChange` (mean of the
successive differences over the last 10 values). -/
def calculateRateOfChange (values : List ℚ) : ℚ :=
  if values.length < 2 then 0
  else
    let recent := jsSliceLast 10 values
    let changes := (recent.zip recent.tail).map (fun p => p.2 - p.1)
    changes.sum / changes.length

/-- Predictions of `predictThresholdReach` (absent key = property never
assigned). -/
structure ThresholdPredictions where
  cpuThreshold : Option ℚ
  cpuEmergency : Option ℚ
  tempThreshold : Option ℚ
  tempEmergency : Option ℚ
deriving DecidableEq, Repr

/-- Embedding of `UsageHistoryManager.predictThresholdReach` (fixed
thresholds cpu 85 / temp 80, emergency cpu 95 / temp 90).  The two trend
arguments are accepted and unused, as in the source. -/
def predictThresholdReach (currentCpu : ℚ) (_cpuTrend _tempTrend : ℚ)
    (cpuRateOfChange tempRateOfChange currentTemp : ℚ) : ThresholdPredictions :=
  let cpuThr : Option ℚ :=
    if cpuRateOfChange > 0 ∧ currentCpu < 85 then
      some (max 0 ((85 - currentCpu) / cpuRateOfChange))
    else none
  let cpuEm : Option ℚ :=
    if cpuRateOfChange > 0 ∧ currentCpu < 95 then
      some (max 0 ((95 - currentCpu) / cpuRateOfChange))
    else none
  let tempThr : Option ℚ :=
    if tempRateOfChange > 0 ∧ currentTemp < 80 then
      some (max 0 ((80 - currentTemp) / tempRateOfChange))
    else none
  let tempEm : Option ℚ :=
    if tempRateOfChange > 0 ∧ currentTemp < 90 then
      some (max 0 ((90 - currentTemp) / tempRateOfChange))
    else none
  { cpuThreshold := cpuThr, cpuEmergency := cpuEm
    tempThreshold := tempThr, tempEmergency := tempEm }

/-- One entry of `analyzeOperationMixChanges().changes`. -/
structure MixChange where
  timestamp : ℕ
  newTypes : List String
  removedTypes : List String
  intensityChange : ℚ
deriving DecidableEq, Repr

/-- Result of `analyzeOperationMixChanges`.  On the short `length < 2` path
the source returns only `hasChanges: false`; the other fields are undefined
there and never read, modelled as empty. -/
structure MixAnalysis where
  hasChanges : Bool
  changes : List MixChange
  currentMix : OpMix
deriving DecidableEq, Repr

/-- Embedding of `UsageHistoryManager.calculateIntensityChange`. -/
def calculateIntensityChange (prevMix currMix : OpMix) : ℚ :=
  (currMix.map (·.2)).sum - (prevMix.map (·.2)).sum

/-- JS falsy test for a mix entry (`!prev[type]`: absent or count 0). -/
def mixFalsy (m : OpMix) (t : String) : Bool :=
  match mixGet m t with
  | none => true
  | some v => v == 0

/-- Embedding of `UsageHistoryManager.analyzeOperationMixChanges` over the
last 5 mixes. -/
def analyzeOperationMixChanges (operationMixes : List OpMix) : MixAnalysis :=
  if operationMixes.length < 2 then
    { hasChanges := false, changes := [], currentMix := [] }
  else
    let recent := jsSliceLast 5 operationMixes
    let steps := (recent.zip recent.tail).enum
    let changes := steps.filterMap (fun (pi : ℕ × (OpMix × OpMix)) =>
      let prev := pi.2.1
      let curr := pi.2.2
      let newTypes := (curr.map (·.1)).filter (fun t => mixFalsy prev t)
      let removedTypes := (prev.map (·.1)).filter (fun t => mixFalsy curr t)
      if newTypes.length > 0 ∨ removedTypes.length > 0 then
        some { timestamp := pi.1 + 1, newTypes := newTypes
               removedTypes := removedTypes
               intensityChange := calculateIntensityChange prev curr }
      else none)
    { hasChanges := changes.length > 0
      changes := changes
      currentMix := recent.getLast?.getD [] }

/-- Current metrics of `analyzeUsageTrends`. -/
structure CurrentMetrics where
  cpuUsage : ℚ
  cpuTemp : ℚ
  memoryUsage : ℚ
  threadCount : ℚ
deriving DecidableEq, Repr

/-- Per-metric trends of `analyzeUsageTrends`. -/
structure Trends where
  cpu : ℚ
  temp : ℚ
  memory : ℚ
  threads : ℚ
deriving DecidableEq, Repr

/-- Result of `analyzeUsageTrends`.  On the `length < 10` short path the
source returns only `hasEnoughData: false` with `reason`; the remaining
fields are undefined there and never read by the callers, modelled as
defaults. -/
structure TrendsAnalysis where
  hasEnoughData : Bool
  reason : String
  currentMetrics : CurrentMetrics
  trends : Trends
  rateOfChangeCpu : ℚ
  rateOfChangeTemp : ℚ
  predictions : ThresholdPredictions
  operationMixAnalysis : MixAnalysis
  dataPoints : ℕ
  timeSpan : ℚ
deriving DecidableEq, Repr

/-- Embedding of `UsageHistoryManager.analyzeUsageTrends`. -/
def analyzeUsageTrends (now : ℚ) (m : UHM) : TrendsAnalysis :=
  let history := getAllHistory now m
  if history.length < 10 then
    { hasEnoughData := false, reason := "insufficient_data"
      currentMetrics := ⟨0, 0, 0, 0⟩, trends := ⟨0, 0, 0, 0⟩
      rateOfChangeCpu := 0, rateOfChangeTemp := 0
      predictions := ⟨none, none, none, none⟩
      operationMixAnalysis := ⟨false, [], []⟩
      dataPoints := 0, timeSpan := 0 }
  else
    let cpuUsage := history.map (fun p => jsOrQ p.cpu_usage 0)
    let cpuTemp := history.map (fun p => jsOrQ p.cpu_temp 0)
    let memoryUsage := history.map (fun p => jsOrQ p.memory_usage 0)
    let threadCounts := history.map (fun p => jsOrQ p.concurrent_threads 1)
    let operationMixes := history.map (fun p => p.operation_mix.getD [])
    let cpuTrend := calculateTrend cpuUsage
    let tempTrend := calculateTrend cpuTemp
    let memoryTrend := calculateTrend memoryUsage
    let threadTrend := calculateTrend threadCounts
    let cpuRate := calculateRateOfChange cpuUsage
    let tempRate := calculateRateOfChange cpuTemp
    let predictions := predictThresholdReach (cpuUsage.getLast?.getD 0)
      cpuTrend tempTrend cpuRate tempRate (cpuTemp.getLast?.getD 0)
    { hasEnoughData := true, reason := ""
      currentMetrics :=
        { cpuUsage := cpuUsage.getLast?.getD 0
          cpuTemp := cpuTemp.getLast?.getD 0
          memoryUsage := memoryUsage.getLast?.getD 0
          threadCount := threadCounts.getLast?.getD 0 }
      trends := { cpu := cpuTrend, temp := tempTrend
                  memory := memoryTrend, threads := threadTrend }
      rateOfChangeCpu := cpuRate, rateOfChangeTemp := tempRate
      predictions := predictions
      operationMixAnalysis := analyzeOperationMixChanges operationMixes
      dataPoints := history.length
      timeSpan :=
        ((history.getLast?.getD ⟨0, none, none, none, none, none, none, none⟩).timestamp -
          (history.head?.getD ⟨0, none, none, none, none, none, none, none⟩).timestamp) / 1000 }

/-- Threshold options accepted by `getScalingRecommendations` (the engine
also passes emergency thresholds, which the function ignores). -/
structure RecThresholds where
  highCpuUsage : Option ℚ
  highTemp : Option ℚ
deriving DecidableEq, Repr

/-- Result of `getScalingRecommendations`; the `metrics`/`timeToThreshold`
payload fields are informational and omitted. -/
structure ScalingRec where
  action : String
  reason : String
  urgency : Option String
  confidence : ℚ
deriving DecidableEq, Repr

/-- Embedding of `UsageHistoryManager.getScalingRecommendations`. -/
def getScalingRecommendations (thresholds : RecThresholds) (now : ℚ)
    (m : UHM) : ScalingRec :=
  let analysis := analyzeUsageTrends now m
  if !analysis.hasEnoughData then
    { action := "maintain", reason := "insufficient_data"
      urgency := none, confidence := 3 / 10 }
  else
    let cm := analysis.currentMetrics
    let highCpuThreshold := jsOrQ thresholds.highCpuUsage 85
    let highTempThreshold := jsOrQ thresholds.highTemp 80
    if cm.cpuUsage > highCpuThreshold ∨ cm.cpuTemp > highTempThreshold then
      { action := "scale_down", reason := "high_current_usage"
        urgency := some "high", confidence := 9 / 10 }
    else if (match analysis.predictions.cpuThreshold with
             | some t => !(t == 0) && decide (t < 30)
             | none => false) then
      { action := "scale_down", reason := "predicted_threshold_reach"
        urgency := some "medium", confidence := 7 / 10 }
    else if cm.cpuUsage < 50 ∧ cm.cpuTemp < 70 ∧ analysis.trends.cpu < 0 then
      { action := "scale_up", reason := "low_usage_stable_trend"
        urgency := some "low", confidence := 3 / 5 }
    else
      { action := "maintain", reason := "stable_conditions"
        urgency := none, confidence := 1 / 2 }

/-! ## Additional JS-number operations used by the decision engine. -/

namespace JNum

/-- JS unary minus. -/
def jneg : JNum → JNum
  | nan => nan
  | posInf => negInf
  | negInf => posInf
  | fin q => fin (-q)

/-- JS `-` on numbers. -/
def jsub (a b : JNum) : JNum := jadd a (jneg b)

/-- JS `/` on numbers (the zero denominator is `+0`, the only zero the
embedding has). -/
def jdiv : JNum → JNum → JNum
  | nan, _ => nan
  | _, nan => nan
  | posInf, posInf => nan
  | posInf, negInf => nan
  | negInf, posInf => nan
  | negInf, negInf => nan
  | fin _, posInf => fin 0
  | fin _, negInf => fin 0
  | posInf, fin b => if 0 ≤ b then posInf else negInf
  | negInf, fin b => if 0 ≤ b then negInf else posInf
  | fin a, fin b =>
    if b = 0 then (if a = 0 then nan else if 0 < a then posInf else negInf)
    else fin (a / b)

/-- JS truthiness of a number (`NaN` and `0` are falsy). -/
def jsTruthy : JNum → Bool
  | nan => false
  | fin q => !(q == 0)
  | _ => true

/-- JS `a || d` on numbers. -/
def jsOrJ (a d : JNum) : JNum := if jsTruthy a then a else d

/-- JS `a !== b` on numbers (`NaN !== NaN` is true). -/
def jsStrictNeq (a b : JNum) : Bool :=
  if a = nan ∨ b = nan then true else a ≠ b

end JNum

/-- JS `o?.f || d` where the optional chain yields a number. -/
def jsOrJO (o : Option JNum) (d : JNum) : JNum :=
  match o with
  | some j => JNum.jsOrJ j d
  | none => d

/-- JS `Math.round` (and the `toFixed` tie-break): round half toward +∞. -/
def jsRound (q : ℚ) : ℤ := ⌊q + 1 / 2⌋

/-- JS `Number.prototype.toFixed(f)` for the rationals this code formats
(the `-0.00` corner of negative values rounding to zero is not modelled; no
embedded call site produces it). -/
def jsToFixed (f : ℕ) (q : ℚ) : String :=
  let scaled : ℤ := jsRound (q * (10 : ℚ) ^ f)
  let isNeg := scaled < 0
  let a : ℕ := scaled.natAbs
  let base : ℕ := 10 ^ f
  let ipStr := toString (a / base)
  let fpRaw := toString (a % base)
  let fpStr := String.mk (List.replicate (f - fpRaw.length) '0') ++ fpRaw
  let s := if f = 0 then ipStr else ipStr ++ "." ++ fpStr
  if isNeg then "-" ++ s else s

/-- JS default number-to-string conversion, faithful for the integral values
that occur in the embedded template literals (non-integral values are
rendered as exact fractions). -/
def jsNumToString (q : ℚ) : String :=
  if q.den = 1 then toString q.num else toString q.num ++ "/" ++ toString q.den

/-- JS template-literal stringification of a `JNum`. -/
def jnumToString : JNum → String
  | .nan => "NaN"
  | .posInf => "Infinity"
  | .negInf => "-Infinity"
  | .fin q => jsNumToString q

/-- The exact value of `Math.ceil(Math.sqrt(q))` for `q ≥ 0` (the least `n`
with `n * n ≥ q`); 0 for `q ≤ 0`. -/
def ceilSqrtQ (q : ℚ) : ℕ :=
  if q ≤ 0 then 0
  else
    let s := Nat.sqrt (Int.toNat ⌈q⌉)
    if ((s : ℚ) * s ≥ q) then s else s + 1

/-- JS `Math.ceil(Math.sqrt(j))` on a JS number. -/
def jceilSqrt : JNum → JNum
  | .nan => .nan
  | .posInf => .posInf
  | .negInf => .nan
  | .fin q => if q < 0 then .nan else .fin (ceilSqrtQ q)

/-! ## ScalingDecisionEngine

State and the decision path of `findOptimalThreadCount` with all of its
callees.  Conventions of the embedding:
* `Date.now()` is an explicit `now : ℚ` argument (milliseconds).
* `Math.sqrt` applied where the resulting *value* matters (the coefficient
  of variation) is an abstract parameter `rsqrt : ℚ → ℚ` standing for the
  real square root; `Math.ceil(Math.sqrt ·)` is computed exactly.
* The external Bayesian optimizer (`this.bayes`) lives outside the modelled
  state; the `approaching` branch of `findOptimalThreadCount` only mutates
  it and its local `bestThreads`/`bestScore` results are read by no return
  value, so the branch has no modelled effect.
* Fields never read by the embedded decision path (`threadScalingHistory`,
  PID state, temperature-delta ring, `operationIntensityProfiles`,
  `dynamicExplorationCeiling`, `currentOptimalEfficiency`) are omitted, as
  is the informational `intensityContext` payload of the results. -/

/-- The five-metric threshold records (`emergencyAbsoluteLimits`,
`highThresholds`). -/
structure Limits5 where
  cpuTemp : ℚ
  cpuUsage : ℚ
  memoryUsage : ℚ
  gpuTemp : ℚ
  gpuUsage : ℚ
deriving DecidableEq, Repr

/-- A telemetry sample as produced by `SystemMonitor.getEnhancedSystemInfo`
(absent readings are `null`, modelled by `none`). -/
structure RawSample where
  cpuLoad : Option ℚ
  avgTemp : Option ℚ
  avgCpuUsage : Option ℚ
  avgCpuTemp : Option ℚ
  avgMemoryUsage : Option ℚ
  avgGpuTemp : Option ℚ
  avgGpuUsage : Option ℚ
deriving DecidableEq, Repr

/-- A recorded performance point (`performanceHistory` entry); only the
fields read by the decision path are kept. -/
structure PerfPoint where
  timestamp : ℚ
  cpuTemp : Option ℚ
  concurrentThreads : ℚ
  activeThreads : ℚ
  queuePressure : ℚ
  utilization : ℚ
  avgLatency : Option ℚ
  backlog : Option ℚ
deriving DecidableEq, Repr

/-- A recorded demand point (`demandHistory` entry); only the fields read by
`getRecentDemandPattern` are kept. -/
structure DemandPoint where
  timestamp : ℚ
  utilization : ℚ
  hasUnmetDemand : Bool
deriving DecidableEq, Repr

/-- A per-thread-count performance window
(`performanceByThreadCount[threadCount]`); the `samples` array mirrors the
four rings and `lastUpdate` is never read, so both are omitted. -/
structure PerfWindow where
  throughput : List ℚ
  latency : List ℚ
  cumulativeTime : List ℚ
  backlog : List ℚ
deriving DecidableEq, Repr

/-- Scale-up guardrails (`getScaleUpGuardrails` result). -/
structure Guardrails where
  validationWindowMs : JNum
  samplesRequired : JNum
  degradationTolerance : JNum
deriving DecidableEq, Repr

/-- A pending scale-up validation (`pendingScaleUpValidation`). -/
structure PendingValidation where
  targetThreads : JNum
  baselineThreads : JNum
  startedAt : ℚ
  guardrails : Option Guardrails
deriving DecidableEq, Repr

/-- Operation-mix context (`operationMixWithContext`). -/
structure MixCtx where
  currentIntensity : ℚ
  totalOperations : ℚ
deriving DecidableEq, Repr

/-- State of `ScalingDecisionEngine` restricted to the fields the embedded
decision path reads or writes. -/
structure Engine where
  minDataWindow : ℚ
  emergencyAbsoluteLimits : Limits5
  highThresholds : Limits5
  performanceHistory : List PerfPoint
  lastRecommendedThreads : JNum
  lastScalingDecision : ℚ
  pendingScaleUpValidation : Option PendingValidation
  demandHistory : List DemandPoint
  useOptimalMaxThreads : Bool
  configuredMaxThreads : Option ℚ
  defaultMaxThreads : Option ℚ
  optimalMaxThreads : Option ℚ
  performanceByThreadCount : List (ℚ × PerfWindow)
  scaleCooldownMs : ℚ
  consecutiveEmergencies : ℕ
  lastStableTime : Option ℚ
  usage : UHM
deriving DecidableEq, Repr

/-- Lookup `performanceByThreadCount[threadCount]` for a rational key. -/
def pbtLookup (m : List (ℚ × PerfWindow)) (k : ℚ) : Option PerfWindow :=
  (m.find? (fun p => p.1 == k)).map (·.2)

/-- Lookup `performanceByThreadCount[threadCount]` for a JS-number key
(non-finite keys are never inserted). -/
def pbtLookupJ (m : List (ℚ × PerfWindow)) : JNum → Option PerfWindow
  | .fin q => pbtLookup m q
  | _ => none

/-- Embedding of `ScalingDecisionEngine.calculateAverage` (the lists of the
model hold finite values, so the `Number.isFinite` filter is the identity). -/
def calcAverage (l : List ℚ) : Option ℚ :=
  if l.length = 0 then none else some (l.sum / l.length)

/-- Embedding of `ScalingDecisionEngine.computeCoefficientOfVariation`;
`rsqrt` stands for `Math.sqrt`. -/
def computeCoV (rsqrt : ℚ → ℚ) (values : List ℚ) : ℚ :=
  if values.length < 2 then 0
  else
    let mean := values.sum / values.length
    if mean = 0 then 0
    else
      let variance := (values.map (fun v => (v - mean) * (v - mean))).sum / values.length
      rsqrt variance / mean

/-- Per-thread-count statistics (`getThreadPerformanceStats` result; the
raw `perf` back-reference is omitted). -/
structure ThreadStats where
  avgThroughput : Option ℚ
  avgLatency : Option ℚ
  avgCumulativeTime : Option ℚ
  variance : ℚ
  sampleCount : ℕ
deriving DecidableEq, Repr

/-- Embedding of `ScalingDecisionEngine.getThreadPerformanceStats`. -/
def getThreadPerformanceStats (rsqrt : ℚ → ℚ) (e : Engine) (k : JNum) :
    Option ThreadStats :=
  match pbtLookupJ e.performanceByThreadCount k with
  | none => none
  | some perf =>
    some { avgThroughput := calcAverage perf.throughput
           avgLatency := calcAverage perf.latency
           avgCumulativeTime := calcAverage perf.cumulativeTime
           variance := computeCoV rsqrt perf.cumulativeTime
           sampleCount := perf.cumulativeTime.length }

/-- Embedding of `ScalingDecisionEngine.estimateThermalTimeConstant`
(`null` temperatures coerce to 0 in the JS comparisons). -/
def estimateThermalTimeConstant (e : Engine) : ℚ :=
  if e.performanceHistory.length < 10 then 5000
  else
    let pairs := e.performanceHistory.zip e.performanceHistory.tail
    let acc := pairs.foldl
      (fun (tc : ℚ × ℕ) pc =>
        let prev := pc.1
        let curr := pc.2
        if curr.concurrentThreads > prev.concurrentThreads ∧
            curr.cpuTemp.getD 0 > prev.cpuTemp.getD 0 then
          let deltaT := curr.cpuTemp.getD 0 - prev.cpuTemp.getD 0
          let deltaTime := curr.timestamp - prev.timestamp
          if deltaT > 2 ∧ deltaTime > 0 then (tc.1 + deltaTime, tc.2 + 1) else tc
        else tc)
      ((0 : ℚ), (0 : ℕ))
    if acc.2 = 0 then 5000
    else max 2000 (min 20000 ((jsRound (acc.1 / acc.2) : ℤ) : ℚ))

/-- Embedding of `ScalingDecisionEngine.estimateTypicalLatency`. -/
def estimateTypicalLatency (e : Engine) : ℚ :=
  if e.performanceHistory.length = 0 then 1000
  else
    let recent := (jsSliceLast (min e.performanceHistory.length 30)
        e.performanceHistory).filterMap
      (fun p => match p.avgLatency with
        | some v => if v > 0 then some v else none
        | none => none)
    if recent.length = 0 then 1000 else recent.sum / recent.length

/-- Recent demand pattern (`getRecentDemandPattern` result). -/
structure DemandPattern where
  hasRecentHighDemand : Bool
  avgUtilization : ℚ
deriving DecidableEq, Repr

/-- Embedding of `ScalingDecisionEngine.getRecentDemandPattern` (5-minute
window). -/
def getRecentDemandPattern (now : ℚ) (e : Engine) : DemandPattern :=
  let recentDemand := e.demandHistory.filter
    (fun p => decide (now - p.timestamp < 300000))
  if recentDemand.length = 0 then { hasRecentHighDemand := false, avgUtilization := 0 }
  else
    { hasRecentHighDemand := recentDemand.any
        (fun p => p.hasUnmetDemand || decide (p.utilization > 7 / 10))
      avgUtilization := (recentDemand.map (·.utilization)).sum / recentDemand.length }

/-- Embedding of `ScalingDecisionEngine.getScaleUpGuardrails`. -/
def getScaleUpGuardrails (rsqrt : ℚ → ℚ) (now : ℚ) (e : Engine)
    (currentThreads nextThreads : JNum) : Guardrails :=
  let thermalConstant := estimateThermalTimeConstant e
  let baselineStats := getThreadPerformanceStats rsqrt e currentThreads
  let nextStats := getThreadPerformanceStats rsqrt e nextThreads
  let sampleDensity : ℚ :=
    max (max ((baselineStats.map (·.sampleCount)).getD 0 : ℕ)
      ((nextStats.map (·.sampleCount)).getD 0 : ℕ) : ℕ)
      ((⌈(e.performanceHistory.length : ℚ) * (1 / 10)⌉ : ℤ) : ℚ)
  let samplesRequired := JNum.jmax (.fin 2)
    (JNum.jmin (.fin 25) (jceilSqrt (JNum.jadd (.fin sampleDensity) nextThreads)))
  let demandPattern := getRecentDemandPattern now e
  let variation : JNum :=
    match baselineStats with
    | some s => .fin s.variance
    | none =>
      match nextStats with
      | some s => .fin s.variance
      | none => JNum.jdiv (.fin 1)
          (JNum.jmax (JNum.jadd currentThreads nextThreads) (.fin 2))
  let demandOffset := demandPattern.avgUtilization
  let fallbackTolerance := JNum.jdiv (.fin 1)
    (JNum.jmax (JNum.jadd currentThreads nextThreads) (.fin 2))
  let degradationTolerance := JNum.jmax fallbackTolerance
    (JNum.jadd variation (JNum.jdiv (.fin demandOffset)
      (JNum.jmax (JNum.jsOrJ nextThreads (.fin 1)) (.fin 1))))
  let avgLatencyMs : ℚ :=
    match baselineStats.bind (·.avgLatency) with
    | some v => if v = 0 then
        (match nextStats.bind (·.avgLatency) with
         | some w => if w = 0 then estimateTypicalLatency e else w
         | none => estimateTypicalLatency e)
      else v
    | none =>
      match nextStats.bind (·.avgLatency) with
      | some w => if w = 0 then estimateTypicalLatency e else w
      | none => estimateTypicalLatency e
  let latencyWindow := JNum.jmul (.fin avgLatencyMs)
    (JNum.jmax samplesRequired (.fin 2))
  let dynamicWindow := JNum.jmax (JNum.jmax latencyWindow
      (.fin (e.scaleCooldownMs * (1 / 2))))
    (JNum.jmax (.fin (thermalConstant * (3 / 4))) (.fin 1000))
  let cappedWindow := JNum.jmin dynamicWindow
    (.fin (max (e.minDataWindow * (1 / 2)) 5000))
  { validationWindowMs := JNum.jmax cappedWindow (.fin e.scaleCooldownMs)
    samplesRequired := samplesRequired
    degradationTolerance := degradationTolerance }

/-- Embedding of `ScalingDecisionEngine.noteScaleUpValidation` (both thread
counts are numbers in the model, so the `typeof` early-out never fires; a
passed guardrails object is truthy). -/
def noteScaleUpValidation (rsqrt : ℚ → ℚ) (now : ℚ)
    (previousThreads nextThreads : JNum) (guardrails : Option Guardrails)
    (e : Engine) : Engine :=
  if JNum.jlt previousThreads nextThreads then
    let snapshot := match guardrails with
      | some g => g
      | none => getScaleUpGuardrails rsqrt now e previousThreads nextThreads
    let pv : PendingValidation :=
      { targetThreads := nextThreads, baselineThreads := previousThreads
        startedAt := now, guardrails := some snapshot }
    { e with pendingScaleUpValidation := some pv }
  else
    match e.pendingScaleUpValidation with
    | some p =>
      if JNum.jle nextThreads p.baselineThreads then
        { e with pendingScaleUpValidation := none }
      else e
    | none => e

/-- Embedding of `ScalingDecisionEngine.isAwaitingScaleUpValidation`. -/
def isAwaitingScaleUpValidation (now : ℚ) (e : Engine) : Bool :=
  match e.pendingScaleUpValidation with
  | none => false
  | some p =>
    if JNum.jsStrictNeq p.targetThreads e.lastRecommendedThreads then false
    else
      let stats := pbtLookupJ e.performanceByThreadCount p.targetThreads
      let samplesRequired := jsOrJO (p.guardrails.map (·.samplesRequired)) (.fin 0)
      let matured := match stats with
        | some st =>
          JNum.jle samplesRequired (.fin st.cumulativeTime.length) &&
            JNum.jle samplesRequired (.fin st.throughput.length)
        | none => false
      if matured then false
      else
        let validationWindow :=
          jsOrJO (p.guardrails.map (·.validationWindowMs)) (.fin e.scaleCooldownMs)
        JNum.jlt (.fin (now - p.startedAt)) validationWindow

/-- Outcome of `evaluateScaleUpValidation` (`null`, a forced rollback, or a
pass). -/
inductive ValOutcome where
  | nullRes
  | force (baselineThreads targetThreads : JNum)
  | passed
deriving DecidableEq, Repr

/-- Embedding of `ScalingDecisionEngine.evaluateScaleUpValidation`. -/
def evaluateScaleUpValidation (now : ℚ) (e : Engine) : ValOutcome × Engine :=
  match e.pendingScaleUpValidation with
  | none => (.nullRes, e)
  | some p =>
    let stats := pbtLookupJ e.performanceByThreadCount p.targetThreads
    let samplesRequired := jsOrJO (p.guardrails.map (·.samplesRequired)) (.fin 0)
    let insufficient := match stats with
      | none => true
      | some st =>
        JNum.jlt (.fin st.cumulativeTime.length) samplesRequired ||
          JNum.jlt (.fin st.throughput.length) samplesRequired
    if insufficient then
      let validationWindow :=
        jsOrJO (p.guardrails.map (·.validationWindowMs)) (.fin e.scaleCooldownMs)
      if JNum.jlt validationWindow (.fin (now - p.startedAt)) then
        (.nullRes, { e with pendingScaleUpValidation := none })
      else (.nullRes, e)
    else
      let e := { e with pendingScaleUpValidation := none }
      let targetAvg := (stats.map (fun st => calcAverage st.cumulativeTime)).join
      let baselineStats := pbtLookupJ e.performanceByThreadCount p.baselineThreads
      let baselineAvg := (baselineStats.map
        (fun bst => calcAverage bst.cumulativeTime)).join
      let regression := match baselineAvg with
        | some b => !(b == 0) && p.guardrails.isSome &&
            (match p.guardrails with
             | some g => JNum.jlt (JNum.jmul (.fin b)
                 (JNum.jadd (.fin 1) g.degradationTolerance)) (.fin (targetAvg.getD 0))
             | none => false)
        | none => false
      if regression then (.force p.baselineThreads p.targetThreads, e)
      else (.passed, e)

/-- Embedding of `ScalingDecisionEngine.historicalDataSupportsScaleUp`. -/
def historicalDataSupportsScaleUp (rsqrt : ℚ → ℚ) (now : ℚ) (e : Engine)
    (currentThreads nextThreads : JNum) (guardrailsOverride : Option Guardrails) :
    Bool :=
  let guardrails := match guardrailsOverride with
    | some g => g
    | none => getScaleUpGuardrails rsqrt now e currentThreads nextThreads
  let currentStats := getThreadPerformanceStats rsqrt e currentThreads
  let nextStats := getThreadPerformanceStats rsqrt e nextThreads
  match currentStats with
  | none => true
  | some cs =>
    if JNum.jlt (.fin cs.sampleCount) (JNum.jsOrJ guardrails.samplesRequired (.fin 0))
    then true
    else
      match nextStats with
      | none => true
      | some ns =>
        if JNum.jlt (.fin ns.sampleCount)
            (JNum.jsOrJ guardrails.samplesRequired (.fin 0)) then true
        else
          match cs.avgCumulativeTime, ns.avgCumulativeTime with
          | some ca, some na =>
            if ca == 0 || na == 0 then true
            else JNum.jle (.fin na) (JNum.jmul (.fin ca)
              (JNum.jadd (.fin 1) guardrails.degradationTolerance))
          | _, _ => true

/-- Embedding of `ScalingDecisionEngine.canScaleUpGradually`. -/
def canScaleUpGradually (rsqrt : ℚ → ℚ) (now : ℚ) (e : Engine)
    (currentThreads nextThreads : JNum) (guardrailsOverride : Option Guardrails) :
    Bool :=
  let guardrails := match guardrailsOverride with
    | some g => g
    | none => getScaleUpGuardrails rsqrt now e currentThreads nextThreads
  if isAwaitingScaleUpValidation now e then false
  else if !historicalDataSupportsScaleUp rsqrt now e currentThreads nextThreads
      (some guardrails) then false
  else
    let cooldownWindow := JNum.jmax guardrails.validationWindowMs
      (.fin e.scaleCooldownMs)
    !(JNum.jlt (.fin (now - e.lastScalingDecision)) cooldownWindow)

/-- Embedding of `ScalingDecisionEngine.getOptimalMaxThreads`. -/
def getOptimalMaxThreads (e : Engine) : Option ℚ :=
  if e.useOptimalMaxThreads then e.optimalMaxThreads else e.defaultMaxThreads

/-- JS `operationMixWithContext?.currentIntensity || 0`. -/
def intensityOf (ctx : Option MixCtx) : ℚ := jsOrQ (ctx.map (·.currentIntensity)) 0

/-- The intensity factor `Math.max(0.5, Math.min(1.5, 1.0 - intensity*0.3))`. -/
def intensityFactorOf (ci : ℚ) : ℚ :=
  max (1 / 2) (min (3 / 2) (1 - ci * (3 / 10)))

/-- The intensity-adjusted ceiling
`Math.floor(effectiveMaxThreads * intensityFactor)`. -/
def adjustedMaxOf (em : JNum) (ci : ℚ) : JNum :=
  JNum.jfloor (JNum.jmul em (.fin (intensityFactorOf ci)))

/-- The `effectiveMaxThreads` selection at the top of
`findOptimalThreadCount` (`maxThreads` argument, else the optimal / ∞ in
autotune mode, else `defaultMaxThreads`; a `null` default coerces to 0 in
the subsequent arithmetic and is unreachable outside autotune mode). -/
def findOptimalEffectiveMax (e : Engine) (maxThreads : Option JNum) : JNum :=
  match maxThreads with
  | some m => m
  | none =>
    if e.useOptimalMaxThreads then
      match getOptimalMaxThreads e with
      | some o => .fin o
      | none => .posInf
    else
      match e.defaultMaxThreads with
      | some d => .fin d
      | none => .fin 0

/-- The `effectiveMaxThreads` selection of `makeScalingDecision`
(autotune: the optimum when known, else no ceiling; otherwise the
`maxThreads` argument). -/
def demandEffectiveMax (e : Engine) (maxThreads : JNum) : JNum :=
  if e.useOptimalMaxThreads then
    match e.optimalMaxThreads with
    | some o => .fin o
    | none => .posInf
  else maxThreads

/-- A demand decision (`makeScalingDecision` result; the informational
`intensityContext` payload is omitted). -/
structure Decision where
  threads : JNum
  scaleType : String
  reason : String
  guardrails : Option Guardrails
deriving DecidableEq, Repr

/-- Embedding of `ScalingDecisionEngine.makeScalingDecision` (the `latest`
sample parameter is accepted and, as in the source, never read). -/
def makeScalingDecision (rsqrt : ℚ → ℚ) (now : ℚ) (e : Engine)
    (_latest : RawSample) (utilization : ℚ) (hasUnmetDemand : Bool)
    (queuePressure : ℚ) (maxThreads : JNum) (ctx : Option MixCtx)
    (_backlogContext : ℚ) : Decision :=
  let currentThreads := e.lastRecommendedThreads
  let currentIntensity := intensityOf ctx
  let awaitingValidation := isAwaitingScaleUpValidation now e
  let adjustedMaxThreads := adjustedMaxOf (demandEffectiveMax e maxThreads)
    currentIntensity
  let downThreshold : ℚ := if currentIntensity > 7 / 10 then 2 / 5 else 3 / 10
  let maintain : Decision :=
    { threads := currentThreads, scaleType := "none"
      reason := (if awaitingValidation then "validation_hold" else "maintain") ++
        "_utilization_" ++ jsToFixed 0 (utilization * 100) ++ "%_intensity_" ++
        jsToFixed 2 currentIntensity
      guardrails := none }
  let fallThrough : Decision :=
    if decide (utilization < downThreshold) && queuePressure == 0 then
      let recentDemand := getRecentDemandPattern now e
      if !recentDemand.hasRecentHighDemand && JNum.jlt (.fin 1) currentThreads then
        { threads := JNum.jsub currentThreads (.fin 1), scaleType := "down"
          reason := "low_utilization_" ++ jsToFixed 0 (utilization * 100) ++
            "%_intensity_" ++ jsToFixed 2 currentIntensity ++ "_no_recent_demand"
          guardrails := none }
      else maintain
    else maintain
  if hasUnmetDemand || decide (utilization > 4 / 5) then
    if JNum.jlt currentThreads adjustedMaxThreads then
      let nextThreads := JNum.jadd currentThreads (.fin 1)
      let guardrails := getScaleUpGuardrails rsqrt now e currentThreads nextThreads
      if !canScaleUpGradually rsqrt now e currentThreads nextThreads
          (some guardrails) then
        { threads := currentThreads, scaleType := "none"
          reason := if awaitingValidation then "awaiting_scale_up_validation_window"
            else "historical_block_scale_up"
          guardrails := some guardrails }
      else
        let intensityReason := if currentIntensity > 7 / 10 then
            "high_intensity_operations" else "normal_operations"
        { threads := nextThreads, scaleType := "up"
          reason := if hasUnmetDemand then
              "unmet_demand_queue_" ++ jsNumToString queuePressure ++ "_" ++
                intensityReason
            else
              "high_utilization_" ++ jsToFixed 0 (utilization * 100) ++ "%_" ++
                intensityReason
          guardrails := some guardrails }
    else fallThrough
  else fallThrough

/-- Embedding of `ScalingDecisionEngine.recommendThreadCount`.  The source
is `async` and consults the usage-history manager (whose lazy cleanup is the
only state effect of the two awaited calls); the unused `currentMetrics`
parameter is kept.  Returns `{threads, guardrails}` and the updated engine. -/
def recommendThreadCount (rsqrt : ℚ → ℚ) (now : ℚ) (e : Engine)
    (_currentMetrics : List RawSample) (maxThreads : JNum) :
    (JNum × Option Guardrails) × Engine :=
  let sRec := getScalingRecommendations
    { highCpuUsage := some e.highThresholds.cpuUsage
      highTemp := some e.highThresholds.cpuTemp } now e.usage
  let usageAnalysis := analyzeUsageTrends now e.usage
  let e := { e with usage := uhmCleanup now e.usage }
  let recommended := e.lastRecommendedThreads
  let recommended :=
    if sRec.action == "scale_down" then
      if sRec.urgency == some "high" || sRec.urgency == some "medium" then
        JNum.jmax (.fin 1) (JNum.jsub e.lastRecommendedThreads (.fin 1))
      else recommended
    else if sRec.action == "scale_up" then
      if JNum.jlt e.lastRecommendedThreads maxThreads &&
          decide (sRec.confidence > 1 / 2) then
        JNum.jmin maxThreads (JNum.jadd e.lastRecommendedThreads (.fin 1))
      else recommended
    else recommended
  let recommended :=
    if usageAnalysis.hasEnoughData && usageAnalysis.operationMixAnalysis.hasChanges
    then
      let intensityChange := jsOrQ
        ((usageAnalysis.operationMixAnalysis.changes.head?).map (·.intensityChange)) 0
      if intensityChange > 0 then JNum.jmax (.fin 1) (JNum.jsub recommended (.fin 1))
      else if intensityChange < 0 then
        JNum.jmin maxThreads (JNum.jadd recommended (.fin 1))
      else recommended
    else recommended
  let pair : JNum × Option Guardrails :=
    if JNum.jlt e.lastRecommendedThreads recommended then
      let computed := getScaleUpGuardrails rsqrt now e
        e.lastRecommendedThreads recommended
      if !canScaleUpGradually rsqrt now e e.lastRecommendedThreads recommended
          (some computed) then
        (e.lastRecommendedThreads, none)
      else (recommended, some computed)
    else (recommended, none)
  let finalThreads := JNum.jmax (.fin 1) (JNum.jmin maxThreads pair.1)
  let guardrails := if JNum.jle finalThreads e.lastRecommendedThreads then none
    else pair.2
  ((finalThreads, guardrails), e)

/-- Embedding of `ScalingDecisionEngine.afterScalingDecision` (both thread
counts are defined numbers in the model, so neither the `undefined`
early-out nor the `typeof` fallback for `previousThreads` fires). -/
def afterScalingDecision (rsqrt : ℚ → ℚ) (now : ℚ)
    (recommendedThreads previousThreads : JNum) (guardrails : Option Guardrails)
    (e : Engine) : Engine :=
  let prior := previousThreads
  let e :=
    if JNum.jsStrictNeq prior recommendedThreads then
      noteScaleUpValidation rsqrt now prior recommendedThreads guardrails
        { e with lastScalingDecision := now }
    else e
  { e with lastRecommendedThreads := recommendedThreads }

/-- Embedding of `ScalingDecisionEngine.handleEmergencyAdaptation`: the
consecutive-emergency counter increments on emergency or near-emergency
ticks and forces a clamp to 1 only past its threshold (3, resp. 10); a
30-second contiguous stable period resets it. -/
def handleEmergencyAdaptation (now : ℚ) (isEmergency isNearEmergency : Bool)
    (e : Engine) : Option JNum × Engine :=
  if isEmergency then
    let e := { e with consecutiveEmergencies := e.consecutiveEmergencies + 1 }
    if e.consecutiveEmergencies > 3 then
      (some (.fin 1), { e with lastRecommendedThreads := .fin 1, lastStableTime := none })
    else (none, e)
  else if isNearEmergency then
    let e := { e with consecutiveEmergencies := e.consecutiveEmergencies + 1 }
    if e.consecutiveEmergencies > 10 then
      (some (.fin 1), { e with lastRecommendedThreads := .fin 1, lastStableTime := none })
    else (none, e)
  else
    let e := match e.lastStableTime with
      | none => { e with lastStableTime := some now }
      | some _ => e
    match e.lastStableTime with
    | some t =>
      if now - t > 30000 then
        (none, { e with consecutiveEmergencies := 0, lastStableTime := some now })
      else (none, e)
    | none => (none, e)

/-- A scaling result of `findOptimalThreadCount` (the informational
`intensityContext` payload is omitted). -/
structure ScalingResult where
  recommendedThreads : JNum
  reason : String
  confidence : ℚ
deriving DecidableEq, Repr

/-- Embedding of `ScalingDecisionEngine.findOptimalThreadCount`.  The
`operationMixes` and `emergencyThresholds` parameters are accepted and, as
in the source, never read by the body; the `approaching` branch only
mutates the external Bayesian optimizer and its local results are dead, so
it has no modelled effect. -/
def findOptimalThreadCount (rsqrt : ℚ → ℚ) (now : ℚ) (e : Engine)
    (rawSamples : List RawSample) (_operationMixes : List OpMix)
    (maxThreads : Option JNum) (_emergencyThresholds : ℚ × ℚ × ℚ)
    (isEmergency isNearEmergency : Bool) (ctx : Option MixCtx) :
    ScalingResult × Engine :=
  let currentIntensity := intensityOf ctx
  let adjustedMaxThreads := adjustedMaxOf (findOptimalEffectiveMax e maxThreads)
    currentIntensity
  let stableWindow := jsSliceLast 20 rawSamples
  let allStable := stableWindow.all (fun s =>
    decide (jsOrQ s.avgCpuTemp 0 < e.highThresholds.cpuTemp - 10) &&
      decide (jsOrQ s.avgCpuUsage 0 < e.highThresholds.cpuUsage - 15))
  match handleEmergencyAdaptation now isEmergency isNearEmergency e with
  | (some ov, e1) =>
    let previousThreads := e1.lastRecommendedThreads
    let e2 := afterScalingDecision rsqrt now ov previousThreads none e1
    let finalEmergencyOverride := JNum.jmax (.fin 1)
      (JNum.jmin adjustedMaxThreads ov)
    ({ recommendedThreads := finalEmergencyOverride
       reason := "emergency_override", confidence := 1 }, e2)
  | (none, e1) =>
    let valPair := evaluateScaleUpValidation now e1
    let e2 := valPair.2
    let valRes : Option (ScalingResult × Engine) :=
      match valPair.1 with
      | .force baseline target =>
        if JNum.jlt baseline e2.lastRecommendedThreads then
          let fallbackThreads := JNum.jmax (.fin 1)
            (JNum.jmin adjustedMaxThreads baseline)
          let previousThreads := e2.lastRecommendedThreads
          let e3 := afterScalingDecision rsqrt now fallbackThreads previousThreads
            none e2
          some ({ recommendedThreads := fallbackThreads
                  reason := "validation_regression_target_" ++ jnumToString target
                  confidence := 17 / 20 }, e3)
        else none
      | _ => none
    match valRes with
    | some r => r
    | none =>
      let demandRes : Option (ScalingResult × Engine) :=
        match e2.performanceHistory.getLast? with
        | none => none
        | some latestPerformance =>
          let utilization := latestPerformance.utilization
          let queuePressure := latestPerformance.queuePressure
          let backlog := latestPerformance.backlog.getD
            (queuePressure + latestPerformance.activeThreads)
          let hasUnmetDemand :=
            JNum.jle e2.lastRecommendedThreads (.fin backlog) ||
              (decide (queuePressure > 0) &&
                JNum.jle e2.lastRecommendedThreads
                  (.fin latestPerformance.activeThreads))
          let dd := makeScalingDecision rsqrt now e2 (rawSamples.getLast?.getD
              ⟨none, none, none, none, none, none, none⟩)
            utilization hasUnmetDemand queuePressure adjustedMaxThreads ctx backlog
          if dd.scaleType == "up" || dd.scaleType == "down" then
            let previousThreads := e2.lastRecommendedThreads
            let e3 := afterScalingDecision rsqrt now dd.threads previousThreads
              dd.guardrails e2
            some ({ recommendedThreads := dd.threads, reason := dd.reason
                    confidence := 4 / 5 }, e3)
          else none
      match demandRes with
      | some r => r
      | none =>
        let maxArg :=
          if e2.useOptimalMaxThreads then
            match e2.optimalMaxThreads with
            | some o => if o == 0 then adjustedMaxThreads else JNum.fin o
            | none => adjustedMaxThreads
          else adjustedMaxThreads
        let recPair := recommendThreadCount rsqrt now e2 rawSamples maxArg
        let recThreads := recPair.1.1
        let e3 := recPair.2
        let previousThreads := e3.lastRecommendedThreads
        let e4 := afterScalingDecision rsqrt now recThreads previousThreads
          recPair.1.2 e3
        let finalRecommended := JNum.jmax (.fin 1)
          (JNum.jmin adjustedMaxThreads recThreads)
        let reason :=
          if allStable then
            "conservative_stable_increase_intensity_" ++ jsToFixed 2 currentIntensity
          else "conservative_hold_intensity_" ++ jsToFixed 2 currentIntensity
        ({ recommendedThreads := finalRecommended, reason := reason
           confidence := if allStable then 9 / 10 else 7 / 10 }, e4)

/-! ## SystemMonitor fragments used by the claims. -/

/-- JS `v >= t` where `v` is a possibly-`null` reading (`null` coerces to
0). -/
def jsGeN (v : Option ℚ) (t : ℚ) : Bool := v.getD 0 ≥ t

/-- The emergency test of `monitorSystemWithScaling` (the fifth argument of
`findOptimalThreadCount`). -/
def monitorIsEmergency (info : RawSample) (em : Limits5) : Bool :=
  jsGeN info.avgTemp em.cpuTemp || jsGeN info.cpuLoad em.cpuUsage ||
    decide (jsOrQ info.avgGpuTemp 0 ≥ em.gpuTemp) ||
    decide (jsOrQ info.avgGpuUsage 0 ≥ em.gpuUsage)

/-- The near-emergency test of `monitorSystemWithScaling` (the sixth
argument of `findOptimalThreadCount`), against the high thresholds. -/
def monitorIsNearEmergency (info : RawSample) (hi : Limits5) : Bool :=
  jsGeN info.avgTemp hi.cpuTemp || jsGeN info.cpuLoad hi.cpuUsage ||
    decide (jsOrQ info.avgGpuTemp 0 ≥ hi.gpuTemp) ||
    decide (jsOrQ info.avgGpuUsage 0 ≥ hi.gpuUsage)

/-- The scaling result as the supervisor tick sees it (`recommendedThreads`
as an arbitrary JS value, to express the guard). -/
structure TickResult where
  recommendedThreads : JSVal
  reason : String
  confidence : ℚ
deriving DecidableEq, Repr

/-- Embedding of the fallback-safety guard of
`SystemMonitor.monitorSystemWithScaling`: the result is replaced when
`typeof recommendedThreads !== "number" || isNaN(recommendedThreads)`.
(`findOptimalThreadCount` always returns an object, so the `!scalingResult`
disjunct never fires.) -/
def fallbackSanitize (r : TickResult) : TickResult :=
  let bad := match r.recommendedThreads with
    | .num n => n == JNum.nan
    | _ => true
  if bad then
    { recommendedThreads := .num (.fin 1), reason := "fallback_safety"
      confidence := 1 / 2 }
  else r

/-! ## LLMThreader constructor fragments (index.js) and the engine's
maxThreads configuration. -/

/-- Embedding of the `normalizedMaxThreads` computation of the `LLMThreader`
constructor: `Number.isFinite(options.maxThreads) && options.maxThreads > 0
? options.maxThreads : null`. -/
def normalizeMaxThreads (v : JSVal) : JSVal :=
  match v with
  | .num (.fin q) => if 0 < q then .num (.fin q) else .null
  | _ => .null

/-- The maxThreads-related fields the `ScalingDecisionEngine` constructor
derives from `options.maxThreads`. -/
structure EngineMaxConfig where
  useOptimalMaxThreads : Bool
  configuredMaxThreads : Option ℚ
  defaultMaxThreads : Option ℚ
  maxThreads : JNum
deriving DecidableEq, Repr

/-- Embedding of the maxThreads handling of the `ScalingDecisionEngine`
constructor. -/
def engineMaxConfig (v : JSVal) : EngineMaxConfig :=
  let useOptimal := v == JSVal.undef || v == JSVal.null
  let configured : Option ℚ :=
    match v with
    | .num (.fin q) => if 0 < q then some q else none
    | _ => none
  let defaultMax : Option ℚ :=
    if useOptimal then none else some (configured.getD 12)
  { useOptimalMaxThreads := useOptimal
    configuredMaxThreads := configured
    defaultMaxThreads := defaultMax
    maxThreads := match configured with
      | some q => .fin q
      | none => .posInf }

/-! ## Predicates and concrete states used by the claim theorems. -/

/-- Default emergency absolute limits (`cpuTemp 95, cpuUsage 98,
memoryUsage 95, gpuTemp 95, gpuUsage 98`). -/
def emLimitsDefault : Limits5 :=
  { cpuTemp := 95, cpuUsage := 98, memoryUsage := 95, gpuTemp := 95, gpuUsage := 98 }

/-- Default high thresholds (all 85). -/
def hiLimitsDefault : Limits5 :=
  { cpuTemp := 85, cpuUsage := 85, memoryUsage := 85, gpuTemp := 85, gpuUsage := 85 }

/-- A telemetry sample with the CPU temperature at 96 °C (at or above the
default emergency limit of 95). -/
def emSampleC2 : RawSample :=
  { cpuLoad := some 50, avgTemp := some 96, avgCpuUsage := some 50
    avgCpuTemp := some 96, avgMemoryUsage := some 40
    avgGpuTemp := none, avgGpuUsage := none }

/-- An engine state as built by the constructor in autotune mode (default
options, empty history) except that the last recommendation has settled at
4 threads and a first emergency tick is about to arrive
(`consecutiveEmergencies = 0`). -/
def engineC2 : Engine :=
  { minDataWindow := 30000
    emergencyAbsoluteLimits := emLimitsDefault
    highThresholds := hiLimitsDefault
    performanceHistory := []
    lastRecommendedThreads := .fin 4
    lastScalingDecision := 0
    pendingScaleUpValidation := none
    demandHistory := []
    useOptimalMaxThreads := true
    configuredMaxThreads := none
    defaultMaxThreads := none
    optimalMaxThreads := none
    performanceByThreadCount := []
    scaleCooldownMs := 10000
    consecutiveEmergencies := 0
    lastStableTime := none
    usage := { maxHistoryAge := 300000, maxDataPoints := 300, memoryHistory := [] } }

/-- A limit is a natural number or +∞ (the shape every reachable
`maxConcurrentRequests` has when scaling arguments are integral). -/
def NatOrInf (j : JNum) : Prop := j = .posInf ∨ ∃ n : ℕ, j = .fin n

/-- Events that keep the admission manager inside the claimed invariant:
no emergency-bypass submissions, and scaling arguments whose sanitized
value is a natural number or +∞. -/
def GoodEv : Ev → Prop
  | .submit _ em => em = false
  | .update v => (∃ n : ℕ, sanitizeThreadLimit v = .fin n) ∨
      sanitizeThreadLimit v = .posInf
  | .complete _ _ => True
  | .fail _ _ => True

/-- Inductive invariant for the no-emergency admission manager: all queued
and historic requests are non-emergency, the bypass flag is down, the limit
is a natural number or +∞ and bounds the active count, and any deferred
limit is a natural number. -/
def TMInv (s : TM) : Prop :=
  (∀ r ∈ s.requestQueue, r.emergencyBypass = false) ∧
  (∀ r ∈ s.requestHistory, r.emergencyBypass = false) ∧
  s.emergencyBypassActive = false ∧
  NatOrInf s.maxConcurrentRequests ∧
  JNum.jle (.fin s.activeRequests) s.maxConcurrentRequests = true ∧
  (s.desiredThreadCount = none ∨ ∃ n : ℕ, s.desiredThreadCount = some (.fin n))

/-- The dispatch discipline between two queued requests: the earlier one is
allowed to go first (emergency first, then higher priority), and on equal
keys the earlier one was submitted first. -/
def reqOrdered (a b : LLMRequest) : Prop :=
  reqKeyLe a b ∧ (reqKeyLe b a → a.rid < b.rid)

/-- The queue invariant of claim C7: the queue is sorted by the dispatch
key with ties in submission order, and every queued id precedes the id
counter. -/
def QueueDisciplined (s : TM) : Prop :=
  s.requestQueue.Pairwise reqOrdered ∧ ∀ r ∈ s.requestQueue, r.rid < s.nextId

/-- Terminal events (request completion or failure). -/
def TerminalEv : Ev → Prop
  | .complete _ _ => True
  | .fail _ _ => True
  | _ => False

/-- A manager saturated at limit 1 with one active non-emergency request
and one queued emergency request of priority 10. -/
def c4state : TM :=
  { tmInit 100 with
      activeRequests := 1
      requestQueue := [⟨5, 10, true, .queued, none, none⟩]
      requestHistory := [⟨0, 0, false, .active, none, none⟩]
      emergencyBypassActive := true
      nextId := 6 }

/-- The stable insertion of a request after every element that may precede
it: the effect of `push` + stable sort on an already sorted queue. -/
def stableInsert (x : LLMRequest) : List LLMRequest → List LLMRequest
  | [] => [x]
  | a :: l => if reqKeyLe a x then a :: stableInsert x l else x :: a :: l

/-- The request object built by `queueRequest` for a fresh id. -/
def mkReq (rid0 : ℕ) (p : ℚ) (e : Bool) : LLMRequest :=
  { rid := rid0, priority := p, emergencyBypass := e
    status := .queued, result := none, error := none }

/-- A manager with one queued emergency request ahead of one queued
non-emergency request, both within the id counter. -/
def c7state : TM :=
  { tmInit 100 with
      maxConcurrentRequests := .fin 2
      requestQueue := [⟨0, 5, true, .queued, none, none⟩,
        ⟨1, 7, false, .queued, none, none⟩]
      nextId := 2 }

/-- The deferred-downscale protocol of claim C3, relative to the state
right after `updateLimit(n)` was deferred: either the downscale to `n` is
still pending — the limit stays at the remembered `activeRequests` value
`a0` and nothing has been emitted since — or it has been applied by some
terminal transition: the limit is `n` and exactly one scaling update
`(n, a0)` has been emitted. -/
def C3Post (n a0 : ℕ) (e0 : List (JNum × JNum)) (r : TM) : Prop :=
  (r.desiredThreadCount = some (.fin (n : ℚ)) ∧
    r.maxConcurrentRequests = .fin (a0 : ℚ) ∧
    n < r.activeRequests ∧ r.emitted = e0) ∨
  (r.desiredThreadCount = none ∧ r.maxConcurrentRequests = .fin (n : ℚ) ∧
    r.emitted = e0 ++ [(.fin (n : ℚ), .fin (a0 : ℚ))])

/-- A manager with limit 4, two active non-emergency requests and no
active emergency bypass. -/
def c3state : TM :=
  { tmInit 100 with
      maxConcurrentRequests := .fin 4
      activeRequests := 2
      requestHistory := [⟨0, 0, false, .active, none, none⟩,
        ⟨1, 0, false, .active, none, none⟩]
      nextId := 2 }

/-! ## Lemmas about the JS-number model. -/

theorem jlt_false_of_jle {a : ℚ} {j : JNum}
    (h : JNum.jle j (.fin a) = true) : JNum.jlt (.fin a) j = false := by
  cases j <;> simp_all [JNum.jle, JNum.jlt]

theorem jle_fin_succ_of_jlt {a : ℕ} {j : JNum} (hj : NatOrInf j)
    (h : JNum.jlt (.fin a) j = true) : JNum.jle (.fin ((a + 1 : ℕ) : ℚ)) j = true := by
  rcases hj with h1 | ⟨n, rfl⟩
  · subst h1; rfl
  · simp only [JNum.jlt, decide_eq_true_eq] at h
    simp only [JNum.jle, decide_eq_true_eq]
    have : a < n := by exact_mod_cast h
    push_cast
    exact_mod_cast Nat.succ_le_of_lt this

theorem jmax_one_jmin_one {a : JNum} (h : a ≠ .nan) :
    JNum.jmax (.fin 1) (JNum.jmin a (.fin 1)) = .fin 1 := by
  cases a with
  | nan => exact absurd rfl h
  | posInf => rfl
  | negInf => rfl
  | fin q =>
    simp only [JNum.jmin, JNum.jmax, JNum.jlt]
    split_ifs with h1 h2 h3 h4 h5 <;> simp_all

/-! ## Frame lemmas about the admission manager. -/

theorem dispatchLoop_noop {s : TM}
    (h : JNum.jlt (.fin s.activeRequests) s.maxConcurrentRequests = false) :
    ∀ fuel, dispatchLoop fuel s = s := by
  intro fuel
  cases fuel with
  | zero => rfl
  | succ n =>
    unfold dispatchLoop
    cases hq : s.requestQueue with
    | nil => rfl
    | cons r rest => simp [h]

/-- Claim C9: `completeRequest` and `failRequest` are no-ops whenever
`findRequest` resolves nothing: for a `requestId` matching no active request
in the history and no request in the queue, every field of the manager is
left unchanged — in particular a second terminal transition for an
already-completed or already-failed request never decrements
`activeRequests` again. -/
theorem c9_terminal_noop (s : TM) (rid res err : ℕ)
    (h : findRequest s rid = none) :
    completeRequest rid res s = s ∧ failRequest rid err s = s := by
  refine ⟨?_, ?_⟩
  · unfold completeRequest; rw [h]
  · unfold failRequest; rw [h]

/-- Witness for C9 at a concrete state: a fresh manager has no request
`0`, and both terminal transitions leave it untouched. -/
theorem c9_witness :
    completeRequest 0 0 (tmInit 100) = tmInit 100 ∧
      failRequest 0 0 (tmInit 100) = tmInit 100 :=
  c9_terminal_noop (tmInit 100) 0 0 0 (by decide)

/-- Counterexample to claim C6 as stated: `updateThreadLimits(Infinity)` is
a non-finite argument, yet the new limit becomes `Infinity`, not 1 — the
sanitation only catches non-numbers, `NaN`, and values `< 1`. -/
theorem c6_counterexample :
    (updateThreadLimits (.num .posInf) (tmInit 100)).maxConcurrentRequests =
        JNum.posInf ∧
      JNum.posInf ≠ JNum.fin 1 := by
  constructor
  · decide
  · decide

/-- Claim C6, amended: for every argument that is non-numeric, `NaN`, or
numerically less than 1 (which includes `-Infinity` but not `+Infinity`),
`updateThreadLimits` never throws and behaves exactly as `updateThreadLimits
1`: the argument is coerced to 1 before the emergency-bypass and deferral
adjustments are applied. -/
theorem c6_invalid_coerced (v : JSVal) (s : TM)
    (h : v.isNumber = false ∨ v = .num .nan ∨
      ∃ n, v = .num n ∧ JNum.jlt n (.fin 1) = true) :
    updateThreadLimits v s = updateThreadLimits (.num (.fin 1)) s := by
  have hs : sanitizeThreadLimit v = .fin 1 := by
    rcases h with h | h | ⟨n, rfl, hn⟩
    · cases v <;> simp_all [JSVal.isNumber, sanitizeThreadLimit]
    · subst h; rfl
    · simp [sanitizeThreadLimit, hn]
  have hs1 : sanitizeThreadLimit (.num (.fin 1)) = .fin 1 := by decide
  unfold updateThreadLimits
  rw [hs, hs1]

/-- Witness for C6 at a concrete input: `updateThreadLimits 0` behaves as
`updateThreadLimits 1` on a fresh manager. -/
theorem c6_witness :
    updateThreadLimits (.num (.fin 0)) (tmInit 100) =
      updateThreadLimits (.num (.fin 1)) (tmInit 100) :=
  c6_invalid_coerced (.num (.fin 0)) (tmInit 100)
    (Or.inr (Or.inr ⟨.fin 0, rfl, by decide⟩))

/-- Counterexample to claim C5 as stated: an engine output of `0`
(a number below 1) and one of `Infinity` (non-finite) are both left
untouched by the supervisor's fallback guard, which replaces only
non-numbers and `NaN`. -/
theorem c5_counterexample :
    fallbackSanitize ⟨.num (.fin 0), "maintain", 9 / 10⟩ =
        ⟨.num (.fin 0), "maintain", 9 / 10⟩ ∧
      fallbackSanitize ⟨.num .posInf, "maintain", 9 / 10⟩ =
        ⟨.num .posInf, "maintain", 9 / 10⟩ ∧
      (JSVal.num (.fin 0) ≠ .num (.fin 1) ∧ JSVal.num .posInf ≠ .num (.fin 1)) := by
  refine ⟨by decide, by decide, by decide, by decide⟩

/-- Claim C5, amended: the supervisor tick replaces the recommendation with
`{recommended: 1, reason: "fallback_safety", confidence: 0.5}` exactly when
`recommendedThreads` is non-numeric or `NaN`; every numeric non-`NaN` value
— including `±Infinity` and numbers below 1 — is applied unchanged. -/
theorem c5_fallback_guard (r : TickResult) :
    (r.recommendedThreads.isNumber = false ∨ r.recommendedThreads = .num .nan →
      fallbackSanitize r = ⟨.num (.fin 1), "fallback_safety", 1 / 2⟩) ∧
    (∀ n, r.recommendedThreads = .num n → n ≠ .nan → fallbackSanitize r = r) := by
  constructor
  · intro h
    rcases h with h | h
    · unfold fallbackSanitize
      rcases hr : r.recommendedThreads with _ | _ | _ | _ | n | _ <;>
        simp_all [JSVal.isNumber]
    · unfold fallbackSanitize
      rw [h]
      simp
  · intro n hn hnan
    unfold fallbackSanitize
    rw [hn]
    cases n <;> simp_all

/-- Witness for C5 at concrete inputs: a non-numeric output is replaced, a
numeric `0` passes through. -/
theorem c5_witness :
    fallbackSanitize ⟨.str "x", "m", 1⟩ = ⟨.num (.fin 1), "fallback_safety", 1 / 2⟩ ∧
      fallbackSanitize ⟨.num (.fin 0), "m", 1⟩ = ⟨.num (.fin 0), "m", 1⟩ :=
  ⟨(c5_fallback_guard ⟨.str "x", "m", 1⟩).1 (Or.inl rfl),
    (c5_fallback_guard ⟨.num (.fin 0), "m", 1⟩).2 (.fin 0) rfl (by decide)⟩

/-- Claim C10: every `options.maxThreads` that is not a finite number
strictly greater than 0 is normalized by the `LLMThreader` constructor to
`null`, and the scaling engine is then configured exactly as if
`maxThreads` had been omitted: autotune mode (`useOptimalMaxThreads =
true`) with no configured hard cap. -/
theorem c10_maxThreads_normalization (v : JSVal)
    (h : ∀ q : ℚ, v = .num (.fin q) → ¬ 0 < q) :
    normalizeMaxThreads v = .null ∧
      engineMaxConfig (normalizeMaxThreads v) = engineMaxConfig .undef ∧
      (engineMaxConfig (normalizeMaxThreads v)).useOptimalMaxThreads = true ∧
      (engineMaxConfig (normalizeMaxThreads v)).configuredMaxThreads = none := by
  have hn : normalizeMaxThreads v = .null := by
    cases v with
    | num n =>
      cases n with
      | fin q => simp [normalizeMaxThreads, h q rfl]
      | nan => rfl
      | posInf => rfl
      | negInf => rfl
    | undef => rfl
    | null => rfl
    | bool b => rfl
    | str s => rfl
    | obj => rfl
  exact ⟨hn, by rw [hn]; decide, by rw [hn]; decide, by rw [hn]; decide⟩

/-- Witness for C10 at concrete inputs (`0` is not strictly positive). -/
theorem c10_witness :
    normalizeMaxThreads (.num (.fin 0)) = .null ∧
      engineMaxConfig (normalizeMaxThreads (.num (.fin 0))) =
        engineMaxConfig .undef ∧
      (engineMaxConfig (normalizeMaxThreads (.num (.fin 0)))).useOptimalMaxThreads
        = true ∧
      (engineMaxConfig (normalizeMaxThreads (.num (.fin 0)))).configuredMaxThreads
        = none :=
  c10_maxThreads_normalization (.num (.fin 0))
    (by intro q hq; cases hq; decide)

/-- Claim C8: whenever the retrieved usage history holds fewer than 10 data
points (in particular when it is empty), the trend-based recommendation is
exactly `{action: "maintain", reason: "insufficient_data", confidence:
0.3}`, for any threshold arguments. -/
theorem c8_insufficient_data (th : RecThresholds) (now : ℚ) (m : UHM)
    (h : (getAllHistory now m).length < 10) :
    getScalingRecommendations th now m =
      { action := "maintain", reason := "insufficient_data"
        urgency := none, confidence := 3 / 10 } := by
  unfold getScalingRecommendations analyzeUsageTrends
  simp [h]

/-- Witness for C8 at a concrete input: an empty history manager. -/
theorem c8_witness :
    getScalingRecommendations ⟨some 1, some 2⟩ 0 ⟨300000, 300, []⟩ =
      { action := "maintain", reason := "insufficient_data"
        urgency := none, confidence := 3 / 10 } :=
  c8_insufficient_data ⟨some 1, some 2⟩ 0 ⟨300000, 300, []⟩ (by decide)

/-- Claim C4: when `activeRequests` has reached the limit and an
emergency-bypass request is queued, `processQueue` starts exactly that one
emergency request (the first in the queue order): the net effect is the
transition of `startRequest` on the state with that request removed from
the queue; the limit ends unchanged (the transient `min(limit+1, 2)` raise
is restored) and no `onScalingUpdate` call is emitted. -/
theorem c4_emergency_bypass (s : TM) (req : LLMRequest)
    (hP : s.isProcessing = false)
    (hq : s.requestQueue.find? (·.emergencyBypass) = some req)
    (hge : JNum.jle s.maxConcurrentRequests (.fin s.activeRequests) = true) :
    processQueue s =
        startRequest req
          { s with requestQueue := eraseFirstBy (·.emergencyBypass) s.requestQueue } ∧
      (processQueue s).maxConcurrentRequests = s.maxConcurrentRequests ∧
      (processQueue s).emitted = s.emitted ∧
      (processQueue s).activeRequests = s.activeRequests + 1 := by
  have hnlt : JNum.jlt (.fin s.activeRequests) s.maxConcurrentRequests = false :=
    jlt_false_of_jle hge
  have hany : s.requestQueue.any (·.emergencyBypass) = true :=
    List.any_eq_true.mpr ⟨req, List.mem_of_find?_eq_some hq, List.find?_some hq⟩
  have hmain : processQueue s =
      startRequest req
        { s with requestQueue := eraseFirstBy (·.emergencyBypass) s.requestQueue } := by
    unfold processQueue
    rw [if_neg (by simp [hP])]
    dsimp only
    rw [dispatchLoop_noop (s := { s with isProcessing := true }) hnlt]
    rw [show ({ s with isProcessing := true } : TM).requestQueue.any
        (·.emergencyBypass) = true from hany]
    rw [show JNum.jle ({ s with isProcessing := true } : TM).maxConcurrentRequests
        (.fin ({ s with isProcessing := true } : TM).activeRequests) = true from hge]
    rw [show ({ s with isProcessing := true } : TM).requestQueue.find?
        (·.emergencyBypass) = some req from hq]
    simp [startRequest, hP]
  exact ⟨hmain, by rw [hmain]; simp [startRequest], by rw [hmain]; simp [startRequest],
    by rw [hmain]; simp [startRequest]⟩

/-! ## Invariant preservation for the no-emergency admission manager (C1). -/

theorem jle_fin_mono {a' a : ℕ} {j : JNum} (hle : a' ≤ a)
    (h : JNum.jle (.fin a) j = true) : JNum.jle (.fin a') j = true := by
  cases j <;> simp_all [JNum.jle]
  exact le_trans (by exact_mod_cast hle) h

theorem jle_of_jlt_eq_false {a b : JNum} (ha : a ≠ .nan) (hb : b ≠ .nan)
    (h : JNum.jlt a b = false) : JNum.jle b a = true := by
  cases a <;> cases b <;> simp_all [JNum.jlt, JNum.jle]

theorem jle_trans {a b c : JNum} (h1 : JNum.jle a b = true)
    (h2 : JNum.jle b c = true) : JNum.jle a c = true := by
  cases a <;> cases b <;> cases c <;> simp_all [JNum.jle]
  exact le_trans h1 h2

theorem natOrInf_ne_nan {j : JNum} (h : NatOrInf j) : j ≠ .nan := by
  rcases h with rfl | ⟨n, rfl⟩ <;> simp

theorem sanitize_shape_ne_nan {v : JSVal}
    (hv : (∃ n : ℕ, sanitizeThreadLimit v = .fin n) ∨
      sanitizeThreadLimit v = .posInf) : sanitizeThreadLimit v ≠ .nan := by
  rcases hv with ⟨n, hn⟩ | hn <;> simp [hn]

theorem updateFirst_forall {p : α → Bool} {f : α → α} {P : α → Prop}
    (hf : ∀ x, P x → P (f x)) :
    ∀ {l : List α}, (∀ x ∈ l, P x) → ∀ x ∈ updateFirst p f l, P x := by
  intro l
  induction l with
  | nil => intro _ x hx; simp [updateFirst] at hx
  | cons a t ih =>
    intro hl x hx
    unfold updateFirst at hx
    by_cases hpa : p a
    · simp [hpa] at hx
      rcases hx with rfl | hx
      · exact hf a (hl a (by simp))
      · exact hl x (by simp [hx])
    · simp [hpa] at hx
      rcases hx with rfl | hx
      · exact hl x (by simp)
      · exact ih (fun y hy => hl y (by simp [hy])) x hx

theorem findRequest_mem {s : TM} {rid : ℕ} {req : LLMRequest}
    (h : findRequest s rid = some req) :
    req ∈ s.requestHistory ∨ req ∈ s.requestQueue := by
  unfold findRequest at h
  cases hh : s.requestHistory.find?
      (fun r => r.rid == rid && r.status == RStatus.active) with
  | some r =>
    rw [hh] at h
    cases h
    exact Or.inl (List.mem_of_find?_eq_some hh)
  | none =>
    rw [hh] at h
    exact Or.inr (List.mem_of_find?_eq_some h)

theorem startRequest_hist_mem {s : TM} {req r : LLMRequest}
    (hr : r ∈ (startRequest req s).requestHistory) :
    r ∈ s.requestHistory ∨ r = { req with status := RStatus.active } := by
  unfold startRequest at hr
  dsimp only at hr
  have hbase : r ∈ s.requestHistory ++ [{ req with status := RStatus.active }] := by
    split at hr
    · exact List.mem_of_mem_tail hr
    · exact hr
  rcases List.mem_append.mp hbase with hh | hh
  · exact Or.inl hh
  · exact Or.inr (by simpa using hh)

theorem startRequest_inv {s : TM} {req : LLMRequest}
    (h : TMInv s) (hreq : req.emergencyBypass = false)
    (hlt : JNum.jlt (.fin s.activeRequests) s.maxConcurrentRequests = true) :
    TMInv (startRequest req s) := by
  obtain ⟨hQ, hH, hF, hNat, hAle, hDes⟩ := h
  refine ⟨hQ, ?_, hF, hNat, ?_, hDes⟩
  · intro r hr
    rcases startRequest_hist_mem hr with hh | rfl
    · exact hH r hh
    · exact hreq
  · exact jle_fin_succ_of_jlt hNat hlt

theorem dispatchLoop_inv {s : TM} (h : TMInv s) :
    ∀ fuel, TMInv (dispatchLoop fuel s) := by
  intro fuel
  induction fuel generalizing s with
  | zero => exact h
  | succ n ih =>
    unfold dispatchLoop
    cases hq : s.requestQueue with
    | nil => exact h
    | cons req rest =>
      cases hlt : JNum.jlt (.fin s.activeRequests) s.maxConcurrentRequests with
      | false => simp only [hlt, Bool.false_eq_true, if_false]; exact h
      | true =>
        simp only [hlt, if_true]
        apply ih
        have hreq : req.emergencyBypass = false := h.1 req (by rw [hq]; simp)
        have hrest : TMInv { s with requestQueue := rest } := by
          obtain ⟨hQ, hH, hF, hNat, hAle, hDes⟩ := h
          exact ⟨fun r hr => hQ r (by rw [hq]; simp [hr]), hH, hF, hNat, hAle, hDes⟩
        exact startRequest_inv hrest hreq hlt

theorem processQueue_inv {s : TM} (h : TMInv s) : TMInv (processQueue s) := by
  unfold processQueue
  cases hp : s.isProcessing with
  | true => simpa [hp] using h
  | false =>
    simp only [hp, Bool.false_eq_true, if_false]
    have hs1 : TMInv { s with isProcessing := true } := h
    have hany : ({ s with isProcessing := true } : TM).requestQueue.any
        (·.emergencyBypass) = false := by
      have := h.1
      simp only [List.any_eq_false]
      intro r hr
      simp [this r hr]
    have h2 := dispatchLoop_inv hs1
      ({ s with isProcessing := true } : TM).requestQueue.length
    rw [hany]
    simp only [Bool.false_and, Bool.false_eq_true, if_false]
    exact h2

theorem updateThreadLimits_inv {s : TM} {v : JSVal} (h : TMInv s)
    (hv : (∃ n : ℕ, sanitizeThreadLimit v = .fin n) ∨
      sanitizeThreadLimit v = .posInf) :
    TMInv (updateThreadLimits v s) := by
  obtain ⟨hQ, hH, hF, hNat, hAle, hDes⟩ := h
  have hnl_ne : sanitizeThreadLimit v ≠ .nan := sanitize_shape_ne_nan hv
  have hNatNL : NatOrInf (sanitizeThreadLimit v) := by
    rcases hv with ⟨n, hn⟩ | hn
    · exact Or.inr ⟨n, hn⟩
    · exact Or.inl hn
  unfold updateThreadLimits
  rw [hF]
  simp only [Bool.false_eq_true, if_false]
  cases hlt1 : JNum.jlt (sanitizeThreadLimit v) s.maxConcurrentRequests with
  | true =>
    cases hlt2 : JNum.jlt (sanitizeThreadLimit v) (.fin s.activeRequests) with
    | true =>
      have hshape : ∃ n : ℕ, sanitizeThreadLimit v = .fin n := by
        rcases hv with hfin | hinf
        · exact hfin
        · exfalso
          rcases hNat with h2 | ⟨m, hm⟩
          · rw [hinf, h2] at hlt1
            simp [JNum.jlt] at hlt1
          · rw [hinf, hm] at hlt1
            simp [JNum.jlt] at hlt1
      obtain ⟨n, hn⟩ := hshape
      simp only [hlt1, hlt2, if_true]
      split_ifs with hne hup
      · exact processQueue_inv
          ⟨hQ, hH, rfl, Or.inr ⟨s.activeRequests, rfl⟩, by simp [JNum.jle],
            Or.inr ⟨n, by simp [hn]⟩⟩
      · exact ⟨hQ, hH, rfl, Or.inr ⟨s.activeRequests, rfl⟩, by simp [JNum.jle],
          Or.inr ⟨n, by simp [hn]⟩⟩
      · exact ⟨hQ, hH, rfl, hNat, hAle, Or.inr ⟨n, by simp [hn]⟩⟩
    | false =>
      have hale' : JNum.jle (.fin s.activeRequests) (sanitizeThreadLimit v) = true :=
        jle_of_jlt_eq_false hnl_ne (by simp) hlt2
      simp only [hlt1, hlt2, Bool.false_eq_true, if_false, if_true]
      split_ifs with hne hup
      · exact processQueue_inv ⟨hQ, hH, rfl, hNatNL, hale', Or.inl rfl⟩
      · exact ⟨hQ, hH, rfl, hNatNL, hale', Or.inl rfl⟩
      · exact ⟨hQ, hH, rfl, hNat, hAle, Or.inl rfl⟩
  | false =>
    have hge : JNum.jle s.maxConcurrentRequests (sanitizeThreadLimit v) = true :=
      jle_of_jlt_eq_false hnl_ne (natOrInf_ne_nan hNat) hlt1
    have hale' : JNum.jle (.fin s.activeRequests) (sanitizeThreadLimit v) = true :=
      jle_trans hAle hge
    simp only [hlt1, Bool.false_eq_true, if_false]
    split_ifs with hne hup
    · exact processQueue_inv ⟨hQ, hH, rfl, hNatNL, hale', Or.inl rfl⟩
    · exact ⟨hQ, hH, rfl, hNatNL, hale', Or.inl rfl⟩
    · exact ⟨hQ, hH, rfl, hNat, hAle, Or.inl rfl⟩

theorem terminalTail_inv {s : TM} {req : LLMRequest} (rid : ℕ)
    (h : TMInv s) (hreq : req.emergencyBypass = false) :
    TMInv (terminalTail req rid s) := by
  obtain ⟨hQ, hH, hF, hNat, hAle, hDes⟩ := h
  have hale1 : JNum.jle (.fin ((s.activeRequests - 1 : ℕ) : ℚ))
      s.maxConcurrentRequests = true :=
    jle_fin_mono (Nat.sub_le _ _) hAle
  unfold terminalTail
  rw [hreq]
  simp only [Bool.false_eq_true, if_false]
  rcases hDes with hd | ⟨n, hd⟩
  · simp only [hd]
    exact processQueue_inv ⟨hQ, hH, hF, hNat, hale1, Or.inl rfl⟩
  · simp only [hd]
    cases hjle : JNum.jle (.fin ((s.activeRequests - 1 : ℕ) : ℚ)) (.fin (n : ℚ)) with
    | true =>
      simp only [hjle, if_true]
      exact processQueue_inv
        ⟨hQ, hH, hF, Or.inr ⟨n, rfl⟩, hjle, Or.inl rfl⟩
    | false =>
      simp only [hjle, Bool.false_eq_true, if_false]
      exact processQueue_inv ⟨hQ, hH, hF, hNat, hale1, Or.inr ⟨n, rfl⟩⟩

theorem mutateFound_inv {s : TM} {rid : ℕ} {f : LLMRequest → LLMRequest}
    (h : TMInv s) (hf : ∀ r, r.emergencyBypass = false →
      (f r).emergencyBypass = false) :
    TMInv (mutateFound rid f s) := by
  obtain ⟨hQ, hH, hF, hNat, hAle, hDes⟩ := h
  unfold mutateFound
  dsimp only
  split_ifs with hfound
  · exact ⟨hQ, updateFirst_forall hf hH, hF, hNat, hAle, hDes⟩
  · exact ⟨updateFirst_forall hf hQ, hH, hF, hNat, hAle, hDes⟩

theorem completeRequest_inv {s : TM} (rid res : ℕ) (h : TMInv s) :
    TMInv (completeRequest rid res s) := by
  unfold completeRequest
  cases hfr : findRequest s rid with
  | none => exact h
  | some req =>
    have hreq : req.emergencyBypass = false := by
      rcases findRequest_mem hfr with hm | hm
      · exact h.2.1 req hm
      · exact h.1 req hm
    exact terminalTail_inv rid
      (mutateFound_inv h (fun r hr => hr)) hreq

theorem failRequest_inv {s : TM} (rid err : ℕ) (h : TMInv s) :
    TMInv (failRequest rid err s) := by
  unfold failRequest
  cases hfr : findRequest s rid with
  | none => exact h
  | some req =>
    have hreq : req.emergencyBypass = false := by
      rcases findRequest_mem hfr with hm | hm
      · exact h.2.1 req hm
      · exact h.1 req hm
    exact terminalTail_inv rid
      (mutateFound_inv h (fun r hr => hr)) hreq

theorem queueRequest_inv {s : TM} {p : ℚ} (h : TMInv s) :
    TMInv (queueRequest p false s) := by
  obtain ⟨hQ, hH, hF, hNat, hAle, hDes⟩ := h
  unfold queueRequest
  simp only [Bool.false_eq_true, if_false]
  apply processQueue_inv
  refine ⟨?_, hH, hF, hNat, hAle, hDes⟩
  intro r hr
  dsimp only at hr
  unfold jsSortQueue at hr
  have hr2 := (List.perm_insertionSort reqKeyLe _).subset hr
  rcases List.mem_append.mp hr2 with hm | hm
  · exact hQ r hm
  · simp at hm
    subst hm
    rfl

theorem step_inv {s : TM} {ev : Ev} (h : TMInv s) (hev : GoodEv ev) :
    TMInv (step s ev) := by
  cases ev with
  | submit p em =>
    have : em = false := hev
    subst this
    exact queueRequest_inv h
  | update v => exact updateThreadLimits_inv h hev
  | complete rid res => exact completeRequest_inv rid res h
  | fail rid err => exact failRequest_inv rid err h

theorem runFrom_inv {s : TM} {es : List Ev} (h : TMInv s)
    (hes : ∀ ev ∈ es, GoodEv ev) : TMInv (runFrom s es) := by
  induction es generalizing s with
  | nil => exact h
  | cons ev t ih =>
    exact ih (step_inv h (hes ev (by simp)))
      (fun e he => hes e (by simp [he]))

theorem tmInit_inv (m : ℕ) : TMInv (tmInit m) := by
  refine ⟨?_, ?_, rfl, Or.inr ⟨1, rfl⟩, by simp [JNum.jle, tmInit], Or.inl rfl⟩ <;>
    simp [tmInit]

/-- Counterexample to claim C1 as stated: two public operations violate
`activeRequests ≤ maxConcurrentRequests`.  First, queueing an emergency
request while the single slot is busy bypass-starts it, leaving 2 active at
limit 1.  Second, `updateLimit(1.5)` is accepted unsanitized and the
dispatch loop then starts 2 requests at limit 1.5. -/
theorem c1_counterexample :
    ((run [.submit 0 false, .submit 10 true]).activeRequests = 2 ∧
      (run [.submit 0 false, .submit 10 true]).maxConcurrentRequests = .fin 1 ∧
      JNum.jle (.fin 2) (.fin 1) = false) ∧
    ((run [.update (.num (.fin (3 / 2))), .submit 0 false, .submit 0 false]).activeRequests = 2 ∧
      (run [.update (.num (.fin (3 / 2))), .submit 0 false, .submit 0 false]).maxConcurrentRequests = .fin (3 / 2) ∧
      JNum.jle (.fin 2) (.fin (3 / 2)) = false) := by
  exact ⟨⟨by decide, by decide, by decide⟩, ⟨by decide, by decide, by decide⟩⟩

/-- Claim C1, amended: after every public operation of the admission
manager reached without emergency-bypass submissions and with scaling
arguments whose sanitized value is a natural number or +∞ (the supervisor
only passes such values), the state satisfies
`0 ≤ activeRequests ≤ maxConcurrentRequests`.  A queued emergency bypass,
or a fractional limit, can push `activeRequests` above the limit
(see the counterexample). -/
theorem c1_invariant (es : List Ev) (h : ∀ ev ∈ es, GoodEv ev) :
    0 ≤ (run es).activeRequests ∧
      JNum.jle (.fin ((run es).activeRequests : ℚ))
        (run es).maxConcurrentRequests = true :=
  ⟨Nat.zero_le _, (runFrom_inv (tmInit_inv 100) h).2.2.2.2.1⟩

/-- Witness for C1 on a concrete trace: submit, scale to 3, submit. -/
theorem c1_witness :
    0 ≤ (run [.submit 0 false, .update (.num (.fin 3)), .submit 5 false]).activeRequests ∧
      JNum.jle
        (.fin ((run [.submit 0 false, .update (.num (.fin 3)), .submit 5 false]).activeRequests : ℚ))
        (run [.submit 0 false, .update (.num (.fin 3)), .submit 5 false]).maxConcurrentRequests
        = true :=
  c1_invariant [.submit 0 false, .update (.num (.fin 3)), .submit 5 false] (by
    intro ev hev
    simp only [List.mem_cons, List.not_mem_nil, or_false] at hev
    rcases hev with rfl | rfl | rfl
    · rfl
    · exact Or.inl ⟨3, by simp [sanitizeThreadLimit, JNum.jlt]⟩
    · rfl)

/-! ## Queue-discipline lemmas (C7). -/

theorem reqKeyLe_total (a b : LLMRequest) : reqKeyLe a b ∨ reqKeyLe b a :=
  IsTotal.total a b

theorem reqKeyLe_trans {a b c : LLMRequest} (h1 : reqKeyLe a b)
    (h2 : reqKeyLe b c) : reqKeyLe a c :=
  IsTrans.trans a b c h1 h2

theorem mem_stableInsert {x y : LLMRequest} :
    ∀ {l : List LLMRequest}, y ∈ stableInsert x l → y = x ∨ y ∈ l := by
  intro l
  induction l with
  | nil => intro h; simp [stableInsert] at h; exact Or.inl h
  | cons a t ih =>
    intro h
    unfold stableInsert at h
    split_ifs at h with hle
    · rcases List.mem_cons.mp h with rfl | h2
      · exact Or.inr (by simp)
      · rcases ih h2 with rfl | hh
        · exact Or.inl rfl
        · exact Or.inr (by simp [hh])
    · rcases List.mem_cons.mp h with rfl | h2
      · exact Or.inl rfl
      · exact Or.inr h2

theorem stableInsert_of_head_not_le {x a : LLMRequest} {t : List LLMRequest}
    (hpw : (a :: t).Pairwise reqKeyLe) (h : ¬ reqKeyLe a x) :
    stableInsert x t = x :: t := by
  cases t with
  | nil => rfl
  | cons b t2 =>
    unfold stableInsert
    rw [if_neg]
    intro hbx
    exact h (reqKeyLe_trans (List.rel_of_pairwise_cons hpw (by simp)) hbx)

theorem orderedInsert_cons_sorted {a : LLMRequest} {t : List LLMRequest}
    (hpw : (a :: t).Pairwise reqKeyLe) :
    List.orderedInsert reqKeyLe a t = a :: t := by
  cases t with
  | nil => rfl
  | cons b t2 =>
    unfold List.orderedInsert
    rw [if_pos (List.rel_of_pairwise_cons hpw (by simp))]

theorem insertionSort_push (x : LLMRequest) :
    ∀ {l : List LLMRequest}, l.Pairwise reqKeyLe →
      List.insertionSort reqKeyLe (l ++ [x]) = stableInsert x l := by
  intro l
  induction l with
  | nil => intro _; rfl
  | cons a t ih =>
    intro hpw
    have ht := List.Pairwise.of_cons hpw
    show List.orderedInsert reqKeyLe a (List.insertionSort reqKeyLe (t ++ [x])) =
      stableInsert x (a :: t)
    rw [ih ht]
    by_cases hax : reqKeyLe a x
    · have hhead : stableInsert x (a :: t) = a :: stableInsert x t := by
        rw [stableInsert]
        rw [if_pos hax]
      rw [hhead]
      cases hs : stableInsert x t with
      | nil =>
        cases t with
        | nil => simp [stableInsert] at hs
        | cons c u =>
          simp [stableInsert] at hs
          exact absurd hs (by split_ifs <;> simp)
      | cons b t2 =>
        unfold List.orderedInsert
        rw [if_pos]
        have hb : b ∈ stableInsert x t := by rw [hs]; simp
        rcases mem_stableInsert hb with rfl | hbt
        · exact hax
        · exact List.rel_of_pairwise_cons hpw hbt
    · have h1 : stableInsert x t = x :: t := stableInsert_of_head_not_le hpw hax
      have h2 : stableInsert x (a :: t) = x :: a :: t := by
        rw [stableInsert]
        rw [if_neg hax]
      rw [h1, h2]
      unfold List.orderedInsert
      rw [if_neg hax, orderedInsert_cons_sorted hpw]

theorem pairwise_stableInsert {x : LLMRequest} :
    ∀ {l : List LLMRequest}, l.Pairwise reqOrdered →
      (∀ y ∈ l, y.rid < x.rid) → (stableInsert x l).Pairwise reqOrdered := by
  intro l
  induction l with
  | nil => intro _ _; simp [stableInsert]
  | cons a t ih =>
    intro hpw hid
    unfold stableInsert
    split_ifs with hax
    · refine List.Pairwise.cons ?_ (ih (List.Pairwise.of_cons hpw)
        (fun y hy => hid y (by simp [hy])))
      intro y hy
      rcases mem_stableInsert hy with rfl | hyt
      · exact ⟨hax, fun _ => hid a (by simp)⟩
      · exact List.rel_of_pairwise_cons hpw hyt
    · refine List.Pairwise.cons ?_ hpw
      intro y hy
      have hxy : reqKeyLe x y := by
        rcases hy with _ | hyt
        · exact (reqKeyLe_total a x).resolve_left hax
        · rename_i hyt
          exact reqKeyLe_trans ((reqKeyLe_total a x).resolve_left hax)
            (List.rel_of_pairwise_cons hpw hyt).1
      refine ⟨hxy, fun hyx => ?_⟩
      exfalso
      rcases hy with _ | hyt
      · exact hax hyx
      · rename_i hyt
        exact hax (reqKeyLe_trans (List.rel_of_pairwise_cons hpw hyt).1 hyx)

theorem eraseFirstBy_sublist (p : α → Bool) :
    ∀ l : List α, List.Sublist (eraseFirstBy p l) l := by
  intro l
  induction l with
  | nil => simp [eraseFirstBy]
  | cons a t ih =>
    unfold eraseFirstBy
    split_ifs
    · exact List.sublist_cons_self a t
    · exact ih.cons₂ a

theorem dispatchLoop_frame (fuel : ℕ) (s : TM) :
    (dispatchLoop fuel s).maxConcurrentRequests = s.maxConcurrentRequests ∧
    (dispatchLoop fuel s).desiredThreadCount = s.desiredThreadCount ∧
    (dispatchLoop fuel s).emitted = s.emitted ∧
    (dispatchLoop fuel s).nextId = s.nextId ∧
    (dispatchLoop fuel s).emergencyBypassActive = s.emergencyBypassActive ∧
    (dispatchLoop fuel s).isProcessing = s.isProcessing ∧
    ∃ k, (dispatchLoop fuel s).requestQueue = s.requestQueue.drop k := by
  induction fuel generalizing s with
  | zero => exact ⟨rfl, rfl, rfl, rfl, rfl, rfl, 0, rfl⟩
  | succ n ih =>
    unfold dispatchLoop
    split
    · next heq => exact ⟨rfl, rfl, rfl, rfl, rfl, rfl, 0, by simp [heq]⟩
    · next req rest heq =>
      split
      · obtain ⟨h1, h2, h3, h4, h5, h6, k, hk⟩ :=
          ih (startRequest req { s with requestQueue := rest })
        refine ⟨h1, h2, h3, h4, h5, h6, k + 1, ?_⟩
        rw [hk, heq]
        rfl
      · exact ⟨rfl, rfl, rfl, rfl, rfl, rfl, 0, by simp [heq]⟩

theorem processQueue_frame (s : TM) :
    (processQueue s).maxConcurrentRequests = s.maxConcurrentRequests ∧
    (processQueue s).desiredThreadCount = s.desiredThreadCount ∧
    (processQueue s).emitted = s.emitted ∧
    (processQueue s).nextId = s.nextId ∧
    (processQueue s).emergencyBypassActive = s.emergencyBypassActive ∧
    (processQueue s).isProcessing = s.isProcessing ∧
    List.Sublist (processQueue s).requestQueue s.requestQueue := by
  unfold processQueue
  cases hp : s.isProcessing with
  | true =>
    rw [if_pos rfl]
    exact ⟨rfl, rfl, rfl, rfl, rfl, hp, List.Sublist.refl _⟩
  | false =>
    rw [if_neg (by simp)]
    dsimp only
    obtain ⟨h1, h2, h3, h4, h5, h6, k, hk⟩ :=
      dispatchLoop_frame ({ s with isProcessing := true } : TM).requestQueue.length
        { s with isProcessing := true }
    have hsub : List.Sublist (dispatchLoop
        ({ s with isProcessing := true } : TM).requestQueue.length
        { s with isProcessing := true }).requestQueue s.requestQueue := by
      rw [hk]
      exact List.drop_sublist _ _
    split
    · split
      · exact ⟨h1, h2, h3, h4, h5, rfl,
          (eraseFirstBy_sublist _ _).trans hsub⟩
      · exact ⟨h1, h2, h3, h4, by rw [h5], rfl, hsub⟩
    · exact ⟨h1, h2, h3, h4, by rw [h5], rfl, hsub⟩

theorem processQueue_disciplined {s : TM} (h : QueueDisciplined s) :
    QueueDisciplined (processQueue s) := by
  obtain ⟨h1, h2, h3, h4, h5, h6, hsub⟩ := processQueue_frame s
  exact ⟨h.1.sublist hsub, fun r hr => h4 ▸ h.2 r (hsub.subset hr)⟩

theorem mem_updateFirst {p : α → Bool} {f : α → α} :
    ∀ {l : List α} {y}, y ∈ updateFirst p f l → y ∈ l ∨ ∃ z ∈ l, y = f z := by
  intro l
  induction l with
  | nil => intro y h; simp [updateFirst] at h
  | cons a t ih =>
    intro y h
    unfold updateFirst at h
    split_ifs at h with hpa
    · rcases List.mem_cons.mp h with rfl | h2
      · exact Or.inr ⟨a, by simp, rfl⟩
      · exact Or.inl (by simp [h2])
    · rcases List.mem_cons.mp h with rfl | h2
      · exact Or.inl (by simp)
      · rcases ih h2 with hm | ⟨z, hz, rfl⟩
        · exact Or.inl (by simp [hm])
        · exact Or.inr ⟨z, by simp [hz], rfl⟩

theorem reqKeyLe_congr_left {f : LLMRequest → LLMRequest}
    (hf : ∀ r, (f r).rid = r.rid ∧ (f r).priority = r.priority ∧
      (f r).emergencyBypass = r.emergencyBypass) (a b : LLMRequest) :
    reqKeyLe (f a) b ↔ reqKeyLe a b := by
  unfold reqKeyLe
  rw [(hf a).2.1, (hf a).2.2]

theorem reqKeyLe_congr_right {f : LLMRequest → LLMRequest}
    (hf : ∀ r, (f r).rid = r.rid ∧ (f r).priority = r.priority ∧
      (f r).emergencyBypass = r.emergencyBypass) (a b : LLMRequest) :
    reqKeyLe a (f b) ↔ reqKeyLe a b := by
  unfold reqKeyLe
  rw [(hf b).2.1, (hf b).2.2]

theorem pairwise_reqOrdered_updateFirst {p : LLMRequest → Bool}
    {f : LLMRequest → LLMRequest}
    (hf : ∀ r, (f r).rid = r.rid ∧ (f r).priority = r.priority ∧
      (f r).emergencyBypass = r.emergencyBypass) :
    ∀ {l : List LLMRequest}, l.Pairwise reqOrdered →
      (updateFirst p f l).Pairwise reqOrdered := by
  intro l
  induction l with
  | nil => intro _; simp [updateFirst]
  | cons a t ih =>
    intro h
    unfold updateFirst
    split_ifs with hpa
    · refine List.Pairwise.cons ?_ (List.Pairwise.of_cons h)
      intro y hy
      have hrel := List.rel_of_pairwise_cons h hy
      refine ⟨(reqKeyLe_congr_left hf a y).mpr hrel.1, fun hyx => ?_⟩
      rw [(hf a).1]
      exact hrel.2 ((reqKeyLe_congr_right hf y a).mp hyx)
    · refine List.Pairwise.cons ?_ (ih (List.Pairwise.of_cons h))
      intro y hy
      rcases mem_updateFirst hy with hm | ⟨z, hz, rfl⟩
      · exact List.rel_of_pairwise_cons h hm
      · have hrel := List.rel_of_pairwise_cons h hz
        refine ⟨(reqKeyLe_congr_right hf a z).mpr hrel.1, fun hyx => ?_⟩
        rw [(hf z).1]
        exact hrel.2 ((reqKeyLe_congr_left hf z a).mp hyx)

/-! ## Lemmas for the emergency-adaptation path of the decision engine. -/

theorem jfloor_ne_nan {j : JNum} (h : j ≠ .nan) : JNum.jfloor j ≠ .nan := by
  cases j <;> simp_all [JNum.jfloor]

theorem jmul_fin_ne_nan {m : JNum} {f : ℚ} (hm : m ≠ .nan) (hf : 0 < f) :
    JNum.jmul m (.fin f) ≠ .nan := by
  cases m with
  | nan => exact absurd rfl hm
  | posInf => simp [JNum.jmul, hf, ne_of_gt hf]
  | negInf => simp [JNum.jmul, hf, ne_of_gt hf]
  | fin q => simp [JNum.jmul]

theorem intensityFactorOf_pos (ci : ℚ) : 0 < intensityFactorOf ci :=
  lt_of_lt_of_le (by norm_num) (le_max_left _ _)

theorem findOptimalEffectiveMax_none_ne_nan (e : Engine) :
    findOptimalEffectiveMax e none ≠ .nan := by
  unfold findOptimalEffectiveMax
  cases hu : e.useOptimalMaxThreads with
  | true =>
    simp only [if_true]
    cases hgo : getOptimalMaxThreads e <;> simp
  | false =>
    simp only [Bool.false_eq_true, if_false]
    cases hdm : e.defaultMaxThreads <;> simp

theorem adjustedMaxOf_ne_nan {em : JNum} (h : em ≠ .nan) (ci : ℚ) :
    adjustedMaxOf em ci ≠ .nan :=
  jfloor_ne_nan (jmul_fin_ne_nan h (intensityFactorOf_pos ci))

theorem handleEmergency_clamp (now : ℚ) (b : Bool) (e : Engine)
    (h : 3 ≤ e.consecutiveEmergencies) :
    handleEmergencyAdaptation now true b e =
      (some (.fin 1),
        { e with
            consecutiveEmergencies := e.consecutiveEmergencies + 1
            lastRecommendedThreads := .fin 1
            lastStableTime := none }) := by
  unfold handleEmergencyAdaptation
  simp only [if_true]
  rw [if_pos]
  omega

/-- Counterexample to claim C2 as stated: on a tick whose measured CPU
temperature (96) is above the emergency limit (95) — so the monitor passes
`isEmergency = true` — a first emergency tick (`consecutiveEmergencies = 0`)
does not clamp at all: the engine recommends keeping the previous 4 threads
with reason `"conservative_hold_intensity_0.00"` and confidence 0.7, and no
return path of the engine ever carries the reason `"hard_emergency_clamp"`. -/
theorem c2_counterexample :
    monitorIsEmergency emSampleC2 emLimitsDefault = true ∧
      (findOptimalThreadCount (fun q => q) 0 engineC2 [emSampleC2] [] none
          (98, 95, 98) (monitorIsEmergency emSampleC2 emLimitsDefault)
          (monitorIsNearEmergency emSampleC2 hiLimitsDefault) none).1 =
        { recommendedThreads := .fin 4
          reason := "conservative_hold_intensity_0.00", confidence := 7 / 10 } ∧
      "conservative_hold_intensity_0.00" ≠ "hard_emergency_clamp" := by
  refine ⟨by decide, by decide, by decide⟩

/-- Claim C2, amended: a tick with the measured CPU temperature at or above
the emergency limit makes the monitor pass `isEmergency = true`, and the
engine clamps the recommendation to exactly 1 thread with reason
`"emergency_override"` and confidence 1.0 only once the consecutive
emergency counter exceeds 3 (here: at least 3 before this tick's
increment); earlier emergency ticks fall through to the ordinary decision
path. -/
theorem c2_emergency_clamp (rsqrt : ℚ → ℚ) (now : ℚ) (e : Engine)
    (rawSamples : List RawSample) (mixes : List OpMix) (emTh : ℚ × ℚ × ℚ)
    (info : RawSample) (em : Limits5) (nearFlag : Bool) (ctx : Option MixCtx)
    (hTemp : jsGeN info.avgTemp em.cpuTemp = true)
    (hc : 3 ≤ e.consecutiveEmergencies) :
    (findOptimalThreadCount rsqrt now e rawSamples mixes none emTh
        (monitorIsEmergency info em) nearFlag ctx).1 =
      { recommendedThreads := .fin 1, reason := "emergency_override"
        confidence := 1 } := by
  have hem : monitorIsEmergency info em = true := by
    unfold monitorIsEmergency
    rw [hTemp]
    simp
  rw [hem]
  unfold findOptimalThreadCount
  rw [handleEmergency_clamp now nearFlag e hc]
  dsimp only
  rw [jmax_one_jmin_one
    (adjustedMaxOf_ne_nan (findOptimalEffectiveMax_none_ne_nan e) (intensityOf ctx))]

/-- Witness for C2 at a concrete input: the fourth consecutive emergency
tick on the same overheated sample clamps to 1 with reason
`"emergency_override"`. -/
theorem c2_witness :
    jsGeN emSampleC2.avgTemp emLimitsDefault.cpuTemp = true ∧
      (findOptimalThreadCount (fun q => q) 0
          { engineC2 with consecutiveEmergencies := 3 } [emSampleC2] [] none
          (98, 95, 98) (monitorIsEmergency emSampleC2 emLimitsDefault)
          (monitorIsNearEmergency emSampleC2 hiLimitsDefault) none).1 =
        { recommendedThreads := .fin 1, reason := "emergency_override"
          confidence := 1 } :=
  ⟨by decide,
    c2_emergency_clamp (fun q => q) 0 { engineC2 with consecutiveEmergencies := 3 }
      [emSampleC2] [] (98, 95, 98) emSampleC2 emLimitsDefault
      (monitorIsNearEmergency emSampleC2 hiLimitsDefault) none (by decide) (by decide)⟩

/-- Witness for C4 at a concrete state: limit 1, one active request, one
queued emergency. -/
theorem c4_witness :
    processQueue c4state =
        startRequest ⟨5, 10, true, .queued, none, none⟩
          { c4state with
              requestQueue := eraseFirstBy (·.emergencyBypass) c4state.requestQueue } ∧
      (processQueue c4state).maxConcurrentRequests = c4state.maxConcurrentRequests ∧
      (processQueue c4state).emitted = c4state.emitted ∧
      (processQueue c4state).activeRequests = c4state.activeRequests + 1 :=
  c4_emergency_bypass c4state ⟨5, 10, true, .queued, none, none⟩
    (by decide) (by decide) (by decide)

theorem disciplined_congr {s t : TM} (hq : t.requestQueue = s.requestQueue)
    (hn : t.nextId = s.nextId) (h : QueueDisciplined s) : QueueDisciplined t := by
  unfold QueueDisciplined at *
  rw [hq, hn]
  exact h

theorem mutateFound_disciplined {rid : ℕ} {f : LLMRequest → LLMRequest}
    (hf : ∀ r, (f r).rid = r.rid ∧ (f r).priority = r.priority ∧
      (f r).emergencyBypass = r.emergencyBypass) {s : TM}
    (h : QueueDisciplined s) : QueueDisciplined (mutateFound rid f s) := by
  unfold mutateFound
  dsimp only
  split_ifs
  · exact h
  · refine ⟨pairwise_reqOrdered_updateFirst hf h.1, ?_⟩
    intro r hr
    rcases mem_updateFirst hr with hm | ⟨z, hz, rfl⟩
    · exact h.2 r hm
    · rw [(hf z).1]
      exact h.2 z hz

theorem terminalTail_disciplined (req : LLMRequest) (rid : ℕ) {s : TM}
    (h : QueueDisciplined s) : QueueDisciplined (terminalTail req rid s) := by
  unfold terminalTail
  dsimp only
  apply processQueue_disciplined
  refine disciplined_congr ?_ ?_ h <;> (repeat' split) <;> rfl

theorem completeRequest_disciplined (rid res : ℕ) {s : TM}
    (h : QueueDisciplined s) : QueueDisciplined (completeRequest rid res s) := by
  unfold completeRequest
  split
  · exact h
  · apply terminalTail_disciplined
    apply mutateFound_disciplined
    · exact fun r => ⟨rfl, rfl, rfl⟩
    · exact h

theorem failRequest_disciplined (rid err : ℕ) {s : TM}
    (h : QueueDisciplined s) : QueueDisciplined (failRequest rid err s) := by
  unfold failRequest
  split
  · exact h
  · apply terminalTail_disciplined
    apply mutateFound_disciplined
    · exact fun r => ⟨rfl, rfl, rfl⟩
    · exact h

theorem updateThreadLimits_disciplined (v : JSVal) {s : TM}
    (h : QueueDisciplined s) : QueueDisciplined (updateThreadLimits v s) := by
  unfold updateThreadLimits
  dsimp only
  split_ifs <;>
    first
      | exact processQueue_disciplined (disciplined_congr rfl rfl h)
      | exact disciplined_congr rfl rfl h

theorem queueRequest_aux (p : ℚ) (rid0 : ℕ) (e : Bool) {q : List LLMRequest}
    (hpw : q.Pairwise reqOrdered) (hid : ∀ r ∈ q, r.rid < rid0) :
    (jsSortQueue (q ++ [mkReq rid0 p e])).Pairwise reqOrdered ∧
    ∀ r ∈ jsSortQueue (q ++ [mkReq rid0 p e]), r.rid < rid0 + 1 := by
  have hkey : q.Pairwise reqKeyLe := hpw.imp (fun hab => hab.1)
  have hsort := insertionSort_push (mkReq rid0 p e) hkey
  unfold jsSortQueue
  rw [hsort]
  constructor
  · exact pairwise_stableInsert hpw (fun y hy => hid y hy)
  · intro r hr
    rcases mem_stableInsert hr with rfl | hm
    · exact Nat.lt_succ_self _
    · exact Nat.lt_succ_of_lt (hid r hm)

theorem queueRequest_disciplined (p : ℚ) (e : Bool) {s : TM}
    (h : QueueDisciplined s) : QueueDisciplined (queueRequest p e s) := by
  obtain ⟨hp, hi⟩ := queueRequest_aux p s.nextId e h.1 h.2
  cases e with
  | true =>
    show QueueDisciplined (processQueue { s with
      nextId := s.nextId + 1
      emergencyBypassActive := true
      requestQueue := jsSortQueue (s.requestQueue ++ [mkReq s.nextId p true]) })
    exact processQueue_disciplined ⟨hp, hi⟩
  | false =>
    show QueueDisciplined (processQueue { s with
      nextId := s.nextId + 1
      requestQueue := jsSortQueue (s.requestQueue ++ [mkReq s.nextId p false]) })
    exact processQueue_disciplined ⟨hp, hi⟩

theorem step_disciplined (e : Ev) {s : TM}
    (h : QueueDisciplined s) : QueueDisciplined (step s e) := by
  cases e with
  | submit p em => exact queueRequest_disciplined p em h
  | update v => exact updateThreadLimits_disciplined v h
  | complete rid res => exact completeRequest_disciplined rid res h
  | fail rid err => exact failRequest_disciplined rid err h

theorem runFrom_disciplined (es : List Ev) {s : TM}
    (h : QueueDisciplined s) : QueueDisciplined (runFrom s es) := by
  induction es generalizing s with
  | nil => exact h
  | cons e t ih => exact ih (step_disciplined e h)

theorem sorted_emergency_head {l : List LLMRequest}
    (hpw : l.Pairwise reqKeyLe) {r : LLMRequest}
    (hf : List.find? (fun x => x.emergencyBypass) l = some r) :
    ∃ t, l = r :: t ∧ eraseFirstBy (fun x => x.emergencyBypass) l = t := by
  cases l with
  | nil => simp at hf
  | cons a t =>
    cases ha : a.emergencyBypass with
    | true =>
      rw [List.find?_cons_of_pos _ (by simp [ha])] at hf
      obtain rfl : a = r := by injection hf
      exact ⟨t, rfl, by unfold eraseFirstBy; rw [if_pos ha]⟩
    | false =>
      exfalso
      rw [List.find?_cons_of_neg _ (by simp [ha])] at hf
      have hmem : r ∈ t := List.mem_of_find?_eq_some hf
      have hrtrue : r.emergencyBypass = true := by
        simpa using List.find?_some hf
      have hle : reqKeyLe a r := List.rel_of_pairwise_cons hpw hmem
      unfold reqKeyLe at hle
      simp [ha, hrtrue] at hle

theorem processQueue_sorted_drop {s : TM}
    (hpw : s.requestQueue.Pairwise reqKeyLe) :
    ∃ k, (processQueue s).requestQueue = s.requestQueue.drop k := by
  unfold processQueue
  split
  · exact ⟨0, rfl⟩
  · dsimp only
    obtain ⟨h1, h2, h3, h4, h5, h6, k, hk⟩ :=
      dispatchLoop_frame ({ s with isProcessing := true } : TM).requestQueue.length
        { s with isProcessing := true }
    split
    · split
      · next req heq =>
        have hpw2 : ((dispatchLoop
            ({ s with isProcessing := true } : TM).requestQueue.length
            { s with isProcessing := true }).requestQueue).Pairwise reqKeyLe := by
          rw [hk]
          exact hpw.sublist (List.drop_sublist _ _)
        obtain ⟨t, hqeq, herase⟩ := sorted_emergency_head hpw2 heq
        refine ⟨k + 1, ?_⟩
        show eraseFirstBy (fun x => x.emergencyBypass) (dispatchLoop
            ({ s with isProcessing := true } : TM).requestQueue.length
            { s with isProcessing := true }).requestQueue = _
        rw [herase, ← List.tail_drop, ← hk, hqeq]
        rfl
      · exact ⟨k, hk⟩
    · exact ⟨k, hk⟩

/-- C7: every reachable state of the admission manager keeps its queue
sorted by the dispatch key — emergency-bypass requests strictly before
non-emergency ones, higher priority first within the same flag, and
submission (id) order on ties — and dispatch always removes a prefix of
the queue, so requests start in exactly that order. -/
theorem c7_queue_discipline :
    (∀ es : List Ev, QueueDisciplined (run es)) ∧
    ∀ s : TM, s.requestQueue.Pairwise reqKeyLe →
      ∃ k, (processQueue s).requestQueue = s.requestQueue.drop k := by
  constructor
  · intro es
    exact runFrom_disciplined es ⟨by simp [tmInit], by simp [tmInit]⟩
  · intro s hpw
    exact processQueue_sorted_drop hpw

theorem c7_witness :
    QueueDisciplined (run [.submit 1 false, .submit 2 true]) ∧
    ∃ k, (processQueue c7state).requestQueue = c7state.requestQueue.drop k :=
  ⟨c7_queue_discipline.1 [.submit 1 false, .submit 2 true],
    c7_queue_discipline.2 c7state (by decide)⟩

theorem dispatchLoop_active_mono (fuel : ℕ) : ∀ s : TM,
    s.activeRequests ≤ (dispatchLoop fuel s).activeRequests := by
  induction fuel with
  | zero => intro s; exact le_refl _
  | succ m ih =>
    intro s
    unfold dispatchLoop
    split
    · exact le_refl _
    · next req rest heq =>
      split
      · exact le_trans (Nat.le_succ _)
          (ih (startRequest req { s with requestQueue := rest }))
      · exact le_refl _

theorem processQueue_active_mono (s : TM) :
    s.activeRequests ≤ (processQueue s).activeRequests := by
  unfold processQueue
  split
  · exact le_refl _
  · dsimp only
    have hd : s.activeRequests ≤ (dispatchLoop
        ({ s with isProcessing := true } : TM).requestQueue.length
        { s with isProcessing := true }).activeRequests :=
      dispatchLoop_active_mono _ { s with isProcessing := true }
    split
    · split
      · exact le_trans hd (Nat.le_succ _)
      · exact hd
    · exact hd

theorem processQueue_active_lt {a : ℕ} (s : TM)
    (h : a < s.activeRequests) : a < (processQueue s).activeRequests :=
  lt_of_lt_of_le h (processQueue_active_mono s)

theorem mutateFound_c3 {n a0 : ℕ} {e0 : List (JNum × JNum)} (rid : ℕ)
    (f : LLMRequest → LLMRequest) {s : TM} (h : C3Post n a0 e0 s) :
    C3Post n a0 e0 (mutateFound rid f s) := by
  unfold mutateFound
  dsimp only
  split_ifs <;> exact h

theorem terminalTail_c3 {n a0 : ℕ} {e0 : List (JNum × JNum)}
    (req : LLMRequest) (rid : ℕ) {s : TM} (h : C3Post n a0 e0 s) :
    C3Post n a0 e0 (terminalTail req rid s) := by
  unfold terminalTail
  dsimp only
  split_ifs <;>
  · dsimp only
    rcases h with ⟨hd, hm, hlt, he⟩ | ⟨hd, hm, he⟩
    · rw [hd]
      dsimp only
      by_cases happ : s.activeRequests - 1 ≤ n
      · rw [if_pos (show JNum.jle (.fin ((s.activeRequests - 1 : ℕ) : ℚ))
            (.fin (n : ℚ)) = true by simp [JNum.jle]; omega)]
        obtain ⟨f1, f2, f3, f4, f5, f6, hsub⟩ := processQueue_frame _
        refine Or.inr ⟨f2, f1, f3.trans ?_⟩
        show s.emitted ++ [(.fin (n : ℚ), s.maxConcurrentRequests)] =
          e0 ++ [(.fin (n : ℚ), .fin (a0 : ℚ))]
        rw [he, hm]
      · rw [if_neg (show ¬ JNum.jle (.fin ((s.activeRequests - 1 : ℕ) : ℚ))
            (.fin (n : ℚ)) = true by simp [JNum.jle]; omega)]
        obtain ⟨f1, f2, f3, f4, f5, f6, hsub⟩ := processQueue_frame _
        exact Or.inl ⟨f2, f1.trans hm,
          processQueue_active_lt _ (Nat.lt_of_not_le happ), f3.trans he⟩
    · rw [hd]
      dsimp only
      obtain ⟨f1, f2, f3, f4, f5, f6, hsub⟩ := processQueue_frame _
      exact Or.inr ⟨f2, f1.trans hm, f3.trans he⟩

theorem step_c3 {n a0 : ℕ} {e0 : List (JNum × JNum)} {s : TM} (ev : Ev)
    (hev : TerminalEv ev) (h : C3Post n a0 e0 s) :
    C3Post n a0 e0 (step s ev) := by
  cases ev with
  | submit p e => exact absurd hev (by simp [TerminalEv])
  | update v => exact absurd hev (by simp [TerminalEv])
  | complete rid res =>
    show C3Post n a0 e0 (completeRequest rid res s)
    unfold completeRequest
    split
    · exact h
    · exact terminalTail_c3 _ _ (mutateFound_c3 _ _ h)
  | fail rid err =>
    show C3Post n a0 e0 (failRequest rid err s)
    unfold failRequest
    split
    · exact h
    · exact terminalTail_c3 _ _ (mutateFound_c3 _ _ h)

theorem runFrom_c3 {n a0 : ℕ} {e0 : List (JNum × JNum)} {s : TM}
    (h : C3Post n a0 e0 s) (es : List Ev) (hes : ∀ e ∈ es, TerminalEv e) :
    C3Post n a0 e0 (runFrom s es) := by
  induction es generalizing s with
  | nil => exact h
  | cons e t ih =>
    exact ih (step_c3 e (hes e (by simp)) h) (fun x hx => hes x (by simp [hx]))

/-- Counterexample to claim C3 as stated: with the emergency bypass active
(limit 5, two active emergency requests, `activeRequests = 2`), the call
`updateLimit(1)` with `1 ≤ 1 < activeRequests` does not remember the
desired limit 1 at all: the bypass floor raises the sanitized value to 2
before the deferral check, `2 < activeRequests` fails, and the downscale to
2 is applied immediately with no deferred limit remembered. -/
theorem c3_counterexample :
    (run [.update (.num (.fin 5)), .submit 0 true,
        .submit 0 true]).activeRequests = 2 ∧
    (run [.update (.num (.fin 5)), .submit 0 true, .submit 0 true,
        .update (.num (.fin 1))]).desiredThreadCount = none ∧
    (run [.update (.num (.fin 5)), .submit 0 true, .submit 0 true,
        .update (.num (.fin 1))]).maxConcurrentRequests = .fin 2 :=
  ⟨by decide, by decide, by decide⟩

/-- Claim C3, amended: when the emergency bypass is inactive and
`activeRequests ≤ limit`, a call `updateLimit(n)` with
`1 ≤ n < activeRequests` sets the effective limit to `activeRequests`,
remembers the desired limit `n`, and starts nothing; from then on, over any
trace of request completions and failures, either the downscale is still
pending — the limit stays at the remembered `activeRequests` value, which
still exceeds `n`, and nothing further is emitted — or the first terminal
transition that brought `activeRequests` to `n` has applied it: the limit
is `n` and exactly one scaling update `(n, activeRequests-at-call)` was
emitted. -/
theorem c3_deferred_downscale (n : ℕ) (s : TM)
    (hby : s.emergencyBypassActive = false)
    (hle : JNum.jle (.fin s.activeRequests) s.maxConcurrentRequests = true)
    (h1 : 1 ≤ n) (hn : n < s.activeRequests) :
    (updateThreadLimits (.num (.fin (n : ℚ))) s).maxConcurrentRequests =
      .fin (s.activeRequests : ℚ) ∧
    (updateThreadLimits (.num (.fin (n : ℚ))) s).desiredThreadCount =
      some (.fin (n : ℚ)) ∧
    (updateThreadLimits (.num (.fin (n : ℚ))) s).activeRequests =
      s.activeRequests ∧
    ∀ es : List Ev, (∀ e ∈ es, TerminalEv e) →
      C3Post n s.activeRequests
        ((updateThreadLimits (.num (.fin (n : ℚ))) s).emitted)
        (runFrom (updateThreadLimits (.num (.fin (n : ℚ))) s) es) := by
  have hsan : sanitizeThreadLimit (.num (.fin (n : ℚ))) = .fin (n : ℚ) := by
    have hq : ¬ ((n : ℚ) < 1) := not_lt.mpr (by exact_mod_cast h1)
    simp [sanitizeThreadLimit, JNum.jlt, hq]
  have hltmax : JNum.jlt (.fin (n : ℚ)) s.maxConcurrentRequests = true := by
    cases hmx : s.maxConcurrentRequests with
    | nan => rw [hmx] at hle; simp [JNum.jle] at hle
    | posInf => simp [JNum.jlt]
    | negInf => rw [hmx] at hle; simp [JNum.jle] at hle
    | fin q =>
      rw [hmx] at hle
      simp only [JNum.jle, decide_eq_true_eq] at hle
      simp only [JNum.jlt, decide_eq_true_eq]
      calc (n : ℚ) < (s.activeRequests : ℚ) := by exact_mod_cast hn
        _ ≤ q := hle
  have hltact : JNum.jlt (.fin (n : ℚ)) (.fin (s.activeRequests : ℚ)) = true := by
    simp only [JNum.jlt, decide_eq_true_eq]
    exact_mod_cast hn
  have hlt2 : JNum.jlt s.maxConcurrentRequests (.fin (s.activeRequests : ℚ)) = false := by
    cases hmx : s.maxConcurrentRequests with
    | nan => simp [JNum.jlt]
    | posInf => simp [JNum.jlt]
    | negInf => rw [hmx] at hle; simp [JNum.jle] at hle
    | fin q =>
      rw [hmx] at hle
      simp only [JNum.jle, decide_eq_true_eq] at hle
      simp only [JNum.jlt, decide_eq_false_iff_not, not_lt]
      exact hle
  unfold updateThreadLimits
  dsimp only
  rw [hsan, hby]
  rw [if_neg (show ¬ (false = true) by simp)]
  rw [if_pos hltmax, if_pos hltact]
  dsimp only
  by_cases hEq : (JNum.fin (s.activeRequests : ℚ)) = s.maxConcurrentRequests
  · rw [if_neg (show ¬ ((JNum.fin (s.activeRequests : ℚ)) ≠
        s.maxConcurrentRequests) from fun hne => hne hEq)]
    refine ⟨hEq.symm, rfl, rfl, fun es hes => runFrom_c3 ?_ es hes⟩
    exact Or.inl ⟨rfl, hEq.symm, hn, rfl⟩
  · rw [if_pos hEq]
    rw [if_neg (show ¬ (JNum.jlt s.maxConcurrentRequests
        (.fin (s.activeRequests : ℚ)) = true) by simp [hlt2])]
    refine ⟨rfl, rfl, rfl, fun es hes => runFrom_c3 ?_ es hes⟩
    exact Or.inl ⟨rfl, rfl, hn, rfl⟩

/-- Witness for C3 at a concrete state (limit 4, two active requests) with
`updateLimit(1)` followed by one completion: the deferral is recorded, and
the trace lands in the deferred-downscale protocol. -/
theorem c3_witness :
    (updateThreadLimits (.num (.fin 1)) c3state).desiredThreadCount =
      some (.fin 1) ∧
    C3Post 1 2 ((updateThreadLimits (.num (.fin 1)) c3state).emitted)
      (runFrom (updateThreadLimits (.num (.fin 1)) c3state) [.complete 0 0]) :=
  ⟨(c3_deferred_downscale 1 c3state (by decide) (by decide) (by decide)
      (by decide)).2.1,
    (c3_deferred_downscale 1 c3state (by decide) (by decide) (by decide)
      (by decide)).2.2.2 [.complete 0 0]
      (by intro e he; rcases List.mem_singleton.mp he with rfl; trivial)⟩

end Threader
